import Mathlib

/-!
# Deduplication counter and publish guard

A shallow embedding of `count_manager.c` and `mqtt/mqtt_client.c`.

* The file-scope variables of each translation unit become one record
  (`CounterState`, `GuardState`); every C function becomes a function from the
  state before the call to the state after it, together with the list of
  events the call produced, in program order.
* `uint64_t` values are natural numbers; the only arithmetic on them, the
  increment of `total_count`, is taken modulo `2 ^ 64`.
* `seen_ids` is an array of `cap` cells.  An access outside the array is
  undefined behaviour in C; the embedding returns `none` for it.
* The mosquitto library is external.  Each call into it is recorded as an
  event, and the values it returns are supplied by a `Transport` record.
* C strings are Lean strings, one character per byte; a nullable `char *` is an
  `Option String`.
* Output on stdout (`printf`) is not modelled; the warning written to stderr by
  `mark_seen_locked` is an event.
-/

namespace CountManager

/-! ## Events -/

/-- The two mutexes of the program. -/
inductive Lock where
  | cm_lock
  | mqtt_lock
deriving DecidableEq, Repr

/-- What a call does that is visible outside the two state records: taking and
releasing a mutex, the stderr warning, the call `mqtt_client_publish(topic,
payload)` by which a publish is requested from the guard, and the calls into
libc / mosquitto.  A handle `struct mosquitto *` is a number naming the
allocation; `mosquitto_new` is recorded with the pointer it returned (`none` is
`NULL`). -/
inductive Event where
  | lock (l : Lock)
  | unlock (l : Lock)
  | overflow_warning
  | publish_request (topic payload : Option String)
  | signal_sigpipe_ignore
  | mosquitto_lib_init
  | mosquitto_lib_cleanup
  | mosquitto_new (result : Option Nat)
  | mosquitto_connect_callback_set (m : Nat)
  | mosquitto_disconnect_callback_set (m : Nat)
  | mosquitto_loop_start (m : Nat)
  | mosquitto_connect_async (m : Nat) (host : String) (port : Int) (keepalive : Int)
  | mosquitto_publish (m : Nat) (topic : String) (payloadlen : Nat) (payload : String)
      (qos : Int) (retain : Bool)
  | mosquitto_disconnect (m : Nat)
  | mosquitto_loop_stop (m : Nat) (force : Bool)
  | mosquitto_destroy (m : Nat)
deriving DecidableEq, Repr

/-- Whether the event is a call into the mosquitto library. -/
def Event.isTransportCall : Event → Bool
  | .lock _ => false
  | .unlock _ => false
  | .overflow_warning => false
  | .publish_request _ _ => false
  | .signal_sigpipe_ignore => false
  | _ => true

/-- The handle a library call is made on, if it is made on one. -/
def Event.handle : Event → Option Nat
  | .mosquitto_connect_callback_set m => some m
  | .mosquitto_disconnect_callback_set m => some m
  | .mosquitto_loop_start m => some m
  | .mosquitto_connect_async m _ _ _ => some m
  | .mosquitto_publish m _ _ _ _ _ => some m
  | .mosquitto_disconnect m => some m
  | .mosquitto_loop_stop m _ => some m
  | .mosquitto_destroy m => some m
  | _ => none

/-- Whether the event is a `mosquitto_publish` call. -/
def Event.isPublish : Event → Bool
  | .mosquitto_publish _ _ _ _ _ _ => true
  | _ => false

/-- Whether the event is a call of `mqtt_client_publish`. -/
def Event.isPublishRequest : Event → Bool
  | .publish_request _ _ => true
  | _ => false

/-- The library calls among the events of a run. -/
def transportCalls (evs : List Event) : List Event :=
  evs.filter Event.isTransportCall

/-- The `mosquitto_publish` calls among the events of a run. -/
def publishCalls (evs : List Event) : List Event :=
  evs.filter Event.isPublish

/-- The calls of `mqtt_client_publish` among the events of a run. -/
def publishRequests (evs : List Event) : List Event :=
  evs.filter Event.isPublishRequest

/-! ## The mosquitto library -/

/-- Status `MOSQ_ERR_SUCCESS` of `enum mosq_err_t` in the external header
`mosquitto.h`. -/
def MOSQ_ERR_SUCCESS : Int := 0

/-- Status `MOSQ_ERR_INVAL` of `enum mosq_err_t` in the external header
`mosquitto.h`. -/
def MOSQ_ERR_INVAL : Int := 3

/-- Status `MOSQ_ERR_NO_CONN` of `enum mosq_err_t` in the external header
`mosquitto.h`. -/
def MOSQ_ERR_NO_CONN : Int := 4

/-- What the library returns to the calls one operation makes: the pointer from
`mosquitto_new` (`none` is `NULL`) and the status of `mosquitto_loop_start`,
`mosquitto_connect_async` and `mosquitto_publish`.  No operation makes any of
these calls more than once. -/
structure Transport where
  new_result : Option Nat
  loop_start_rc : Int
  connect_async_rc : Int
  publish_rc : Int
deriving DecidableEq, Repr

/-! ## mqtt_client.c -/

/-- The file-scope variables of `mqtt_client.c`: `mosq` (`none` is `NULL`),
`mqtt_connected`, and `last_host` / `last_port`. -/
structure GuardState where
  mosq : Option Nat
  mqtt_connected : Bool
  last_host : String
  last_port : Int
deriving DecidableEq, Repr

/-- The values of the static initialisers of `mqtt_client.c`. -/
def GuardState.initial : GuardState :=
  { mosq := none, mqtt_connected := false, last_host := "", last_port := 0 }

/-- The C string left in a zero-filled buffer by `strncpy(dst, src, n)`: the
first `n` bytes of `src`. -/
def strncpy (src : String) (n : Nat) : String :=
  String.mk (src.toList.take n)

/-- The value of `strlen`. -/
def strlen (s : String) : Nat :=
  s.length

/-- The callback `on_connect(mosq_, obj, rc)`. -/
def on_connect (rc : Int) (g : GuardState) : GuardState × List Event :=
  ({ g with mqtt_connected := decide (rc = 0) },
    [Event.lock Lock.mqtt_lock, Event.unlock Lock.mqtt_lock])

/-- The callback `on_disconnect(mosq_, obj, rc)`. -/
def on_disconnect (_rc : Int) (g : GuardState) : GuardState × List Event :=
  ({ g with mqtt_connected := false },
    [Event.lock Lock.mqtt_lock, Event.unlock Lock.mqtt_lock])

/-- The function `mqtt_client_init(host, port)`. -/
def mqtt_client_init (host : Option String) (port : Int) (t : Transport) (g : GuardState) :
    GuardState × List Event :=
  match host with
  | none => (g, [])
  | some h =>
    if port ≤ 0 then (g, [])
    else
      let g1 : GuardState := { g with last_host := strncpy h 255, last_port := port }
      let pre : List Event :=
        [Event.lock Lock.mqtt_lock, Event.unlock Lock.mqtt_lock, Event.signal_sigpipe_ignore,
          Event.mosquitto_lib_init, Event.mosquitto_new t.new_result]
      match t.new_result with
      | none => ({ g1 with mosq := none }, pre ++ [Event.mosquitto_lib_cleanup])
      | some m =>
        let g2 : GuardState := { g1 with mosq := some m }
        let cb : List Event :=
          [Event.mosquitto_connect_callback_set m, Event.mosquitto_disconnect_callback_set m,
            Event.mosquitto_loop_start m]
        if t.loop_start_rc ≠ MOSQ_ERR_SUCCESS then
          ({ g2 with mosq := none },
            pre ++ cb ++ [Event.mosquitto_destroy m, Event.mosquitto_lib_cleanup])
        else
          let ev : List Event := pre ++ cb ++ [Event.mosquitto_connect_async m h port 60]
          if t.connect_async_rc ≠ MOSQ_ERR_SUCCESS then
            ({ g2 with mqtt_connected := false },
              ev ++ [Event.lock Lock.mqtt_lock, Event.unlock Lock.mqtt_lock])
          else (g2, ev)

/-- The function `mqtt_do_publish(topic, payload, payloadlen, qos, retain)`:
the status it returns, the state after it and its events. -/
def mqtt_do_publish (topic : Option String) (payload : String) (payloadlen : Nat) (qos : Int)
    (retain : Bool) (t : Transport) (g : GuardState) : Int × GuardState × List Event :=
  match topic with
  | none => (MOSQ_ERR_INVAL, g, [])
  | some tp =>
    match g.mosq with
    | none => (MOSQ_ERR_NO_CONN, g, [Event.lock Lock.mqtt_lock, Event.unlock Lock.mqtt_lock])
    | some m =>
      if !g.mqtt_connected then
        (MOSQ_ERR_NO_CONN, g, [Event.lock Lock.mqtt_lock, Event.unlock Lock.mqtt_lock])
      else
        let rc := t.publish_rc
        let ev : List Event :=
          [Event.lock Lock.mqtt_lock, Event.mosquitto_publish m tp payloadlen payload qos retain,
            Event.unlock Lock.mqtt_lock]
        if rc ≠ MOSQ_ERR_SUCCESS then (rc, { g with mqtt_connected := false }, ev)
        else (rc, g, ev)

/-- The text `snprintf(buf, size, "%llu", v)` leaves in `buf`: the decimal
digits of `v`, cut to `size - 1` bytes. -/
def snprintf_llu (size : Nat) (v : Nat) : String :=
  String.mk ((Nat.toDigits 10 v).take (size - 1))

/-- The function `mqtt_client_publish(topic, payload)`.  The first component is
the local `rc`, the status obtained from `mqtt_do_publish` (which the function
reports on stdout); it is `none` when the function returns before the call. -/
def mqtt_client_publish (topic payload : Option String) (t : Transport) (g : GuardState) :
    Option Int × GuardState × List Event :=
  match topic, payload with
  | some tp, some pl =>
    let r := mqtt_do_publish (some tp) pl (strlen pl) 0 false t g
    (some r.1, r.2.1, Event.publish_request topic payload :: r.2.2)
  | _, _ => (none, g, [Event.publish_request topic payload])

/-- The function `mqtt_client_publish_uint64(topic, value)`, with the status of
its `mqtt_do_publish` call as first component (`none` when it is not made). -/
def mqtt_client_publish_uint64 (topic : Option String) (value : Nat) (t : Transport)
    (g : GuardState) : Option Int × GuardState × List Event :=
  match topic with
  | none => (none, g, [])
  | some tp =>
    let payload := snprintf_llu 64 value
    let r := mqtt_do_publish (some tp) payload (strlen payload) 1 false t g
    (some r.1, r.2.1, r.2.2)

/-- The function `mqtt_client_deinit()`. -/
def mqtt_client_deinit (g : GuardState) : GuardState × List Event :=
  match g.mosq with
  | none =>
    (g, [Event.lock Lock.mqtt_lock, Event.unlock Lock.mqtt_lock, Event.mosquitto_lib_cleanup])
  | some m =>
    ({ mosq := none, mqtt_connected := false, last_host := "", last_port := 0 },
      [Event.lock Lock.mqtt_lock, Event.mosquitto_disconnect m, Event.mosquitto_loop_stop m true,
        Event.mosquitto_destroy m, Event.unlock Lock.mqtt_lock, Event.mosquitto_lib_cleanup])

/-! ## count_manager.c -/

/-- The constant `MAX_TRACKED`. -/
def MAX_TRACKED : Nat := 10000

/-- The file-scope variables of `count_manager.c`.  `seen_ids` gives the content
of each cell of the array; the functions below take the number of cells as
`cap`. -/
structure CounterState where
  total_count : Nat
  seen_ids : Nat → Nat
  seen_count : Int
  overflow_warned : Bool

/-- The values of the static initialisers of `count_manager.c`. -/
def CounterState.initial : CounterState :=
  { total_count := 0, seen_ids := fun _ => 0, seen_count := 0, overflow_warned := false }

/-- The ids the counter treats as stored: cells `0 .. seen_count - 1`. -/
def CounterState.stored (s : CounterState) : List Nat :=
  (List.range s.seen_count.toNat).map s.seen_ids

/-- The function `count_manager_init()`. -/
def count_manager_init (s : CounterState) : CounterState × List Event :=
  ({ s with total_count := 0, seen_count := 0, overflow_warned := false },
    [Event.lock Lock.cm_lock, Event.unlock Lock.cm_lock])

/-- The loop of `has_seen_before_locked`, with `n` iterations left and the loop
variable at `i`; `none` when a cell outside the array would be read. -/
def has_seen_loop (cap : Nat) (seen_ids : Nat → Nat) (id : Nat) : Nat → Nat → Option Bool
  | 0, _ => some false
  | n + 1, i =>
    if i < cap then
      if seen_ids i = id then some true else has_seen_loop cap seen_ids id n (i + 1)
    else none

/-- The function `has_seen_before_locked(id)`: the loop runs for
`i = 0 .. seen_count - 1`. -/
def has_seen_before_locked (cap : Nat) (id : Nat) (s : CounterState) : Option Bool :=
  has_seen_loop cap s.seen_ids id s.seen_count.toNat 0

/-- The function `mark_seen_locked(id)`; `none` when the write would fall
outside the array. -/
def mark_seen_locked (cap : Nat) (id : Nat) (s : CounterState) :
    Option (CounterState × List Event) :=
  if s.seen_count < (cap : Int) then
    if 0 ≤ s.seen_count then
      some ({ s with
                seen_ids := fun i => if i = s.seen_count.toNat then id else s.seen_ids i,
                seen_count := s.seen_count + 1 }, [])
    else none
  else if !s.overflow_warned then
    some ({ s with overflow_warned := true }, [Event.overflow_warning])
  else some (s, [])

/-- The state of both translation units. -/
structure World where
  cm : CounterState
  mq : GuardState

/-- The function `count_manager_process_obj(class_id, object_id)`, with `cap`
for `MAX_TRACKED`. -/
def count_manager_process_obj (cap : Nat) (class_id : Int) (object_id : Nat) (t : Transport)
    (w : World) : Option (World × List Event) :=
  if class_id ≠ 1 then some (w, [])
  else
    match has_seen_before_locked cap object_id w.cm with
    | none => none
    | some true => some (w, [Event.lock Lock.cm_lock, Event.unlock Lock.cm_lock])
    | some false =>
      let s1 : CounterState := { w.cm with total_count := (w.cm.total_count + 1) % 2 ^ 64 }
      match mark_seen_locked cap object_id s1 with
      | none => none
      | some (s2, warn) =>
        let msg := snprintf_llu 64 s2.total_count
        let p := mqtt_client_publish (some "deepstream/count") (some msg) t w.mq
        some ({ cm := s2, mq := p.2.1 },
          [Event.lock Lock.cm_lock] ++ warn ++ p.2.2 ++ [Event.unlock Lock.cm_lock])

/-- The function `count_manager_get_total()`. -/
def count_manager_get_total (s : CounterState) : Nat × List Event :=
  (s.total_count, [Event.lock Lock.cm_lock, Event.unlock Lock.cm_lock])

/-! ## Sequences of calls -/

/-- One call of `count_manager_process_obj`: its two arguments and what the
library answers during it. -/
structure ObjCall where
  class_id : Int
  object_id : Nat
  transport : Transport
deriving DecidableEq, Repr

/-- The calls in `calls` made one after the other from `w`, with the events of
each call; `none` when one of them leaves the array. -/
def process_all (cap : Nat) : List ObjCall → World → Option (World × List (List Event))
  | [], w => some (w, [])
  | c :: rest, w =>
    match count_manager_process_obj cap c.class_id c.object_id c.transport w with
    | none => none
    | some (w1, ev) =>
      match process_all cap rest w1 with
      | none => none
      | some (w2, evs) => some (w2, ev :: evs)

/-- The call `count_manager_process_obj(1, id)` for each id of the list, every
one with the library answering `t`. -/
def observations (t : Transport) (ids : List Nat) : List ObjCall :=
  ids.map fun id => { class_id := 1, object_id := id, transport := t }

/-- One operation on the publish guard: a call of one of its public functions
with the answers of the library, or one of the two notifications. -/
inductive GuardOp where
  | init (host : Option String) (port : Int) (t : Transport)
  | publish (topic payload : Option String) (t : Transport)
  | publish_uint64 (topic : Option String) (value : Nat) (t : Transport)
  | connect_notification (rc : Int)
  | disconnect_notification (rc : Int)
  | deinit
deriving DecidableEq, Repr

/-- What one guard operation does: the status of its `mqtt_do_publish` call if
it makes one, the state after it, and its events. -/
def guard_step (op : GuardOp) (g : GuardState) : Option Int × GuardState × List Event :=
  match op with
  | .init host port t => (none, mqtt_client_init host port t g)
  | .publish topic payload t => mqtt_client_publish topic payload t g
  | .publish_uint64 topic value t => mqtt_client_publish_uint64 topic value t g
  | .connect_notification rc => (none, on_connect rc g)
  | .disconnect_notification rc => (none, on_disconnect rc g)
  | .deinit => (none, mqtt_client_deinit g)

/-- The operations of `ops` applied one after the other from `g`: the final
state and, per operation, the publish status and the events. -/
def guard_run : List GuardOp → GuardState → GuardState × List (Option Int × List Event)
  | [], g => (g, [])
  | op :: rest, g =>
    let r := guard_step op g
    let q := guard_run rest r.2.1
    (q.1, (r.1, r.2.2) :: q.2)

/-! ## Auxiliary definitions for the statements

### The counter -/

/-- The counter state after an observation of a new id that is stored. -/
def CounterState.inserted (id : Nat) (s : CounterState) : CounterState :=
  { total_count := (s.total_count + 1) % 2 ^ 64,
    seen_ids := fun i => if i = s.seen_count.toNat then id else s.seen_ids i,
    seen_count := s.seen_count + 1,
    overflow_warned := s.overflow_warned }

/-- The counter state after an observation of a new id that is not stored. -/
def CounterState.rejected (s : CounterState) : CounterState :=
  { total_count := (s.total_count + 1) % 2 ^ 64,
    seen_ids := s.seen_ids,
    seen_count := s.seen_count,
    overflow_warned := true }

/-- The invariant of the counter: the fill level is within the array, the
stored ids are pairwise distinct, and the total equals the fill level while
the array has room. -/
structure CounterInv (cap : Nat) (s : CounterState) : Prop where
  nonneg : 0 ≤ s.seen_count
  le_cap : s.seen_count ≤ (cap : Int)
  nodup : s.stored.Nodup
  total_eq : s.seen_count < (cap : Int) → s.total_count = s.seen_count.toNat

/-- The counter states that can arise after a call of `count_manager_init`: the
state that call leaves, and every state a returning call of
`count_manager_process_obj` (any arguments, any guard state, any answers of the
library) leaves from such a state.  `count_manager_get_total` changes nothing
and needs no case. -/
inductive CounterReachable (cap : Nat) : CounterState → Prop where
  | init (s : CounterState) : CounterReachable cap (count_manager_init s).1
  | process_obj (class_id : Int) (object_id : Nat) (t : Transport) (w w1 : World)
      (ev : List Event) :
      CounterReachable cap w.cm →
      count_manager_process_obj cap class_id object_id t w = some (w1, ev) →
      CounterReachable cap w1.cm

/-- The ids observed by the calls of a sequence. -/
def ids_of (calls : List ObjCall) : List Nat :=
  calls.map ObjCall.object_id

/-- The call `count_manager_process_obj(1, id)` made `k` times in a row, the
library answering `t i` during call number `i`. -/
def repeated (id : Nat) (t : Nat → Transport) (k : Nat) : List ObjCall :=
  (List.range k).map fun i => { class_id := 1, object_id := id, transport := t i }

/-- The value `count_manager_get_total` returns after each call of a sequence. -/
def totals_after (cap : Nat) : List ObjCall → World → Option (List Nat)
  | [], _ => some []
  | c :: rest, w =>
    match count_manager_process_obj cap c.class_id c.object_id c.transport w with
    | none => none
    | some (w1, _) =>
      match totals_after cap rest w1 with
      | none => none
      | some ts => some ((count_manager_get_total w1.cm).1 :: ts)

/-! ### The publish guard -/

/-- Whether the operation is a call of `mqtt_client_init`. -/
def GuardOp.isInit : GuardOp → Bool
  | .init _ _ _ => true
  | _ => false

/-- Whether the operation is a call of one of the two publish functions. -/
def GuardOp.isPublish : GuardOp → Bool
  | .publish _ _ _ => true
  | .publish_uint64 _ _ _ => true
  | _ => false

/-- Whether the operation is a publish call whose arguments pass the null
checks, so that it goes on to `mqtt_do_publish`. -/
def GuardOp.reachesDoPublish : GuardOp → Bool
  | .publish (some _) (some _) _ => true
  | .publish_uint64 (some _) _ _ => true
  | _ => false

/-- All events of a run of guard operations, in order. -/
def guard_events (ops : List GuardOp) (g : GuardState) : List Event :=
  ((guard_run ops g).2.map Prod.snd).flatten

/-- The handles `mosquitto_new` returned during a run, in order. -/
def allocated : List Event → List Nat
  | [] => []
  | Event.mosquitto_new (some m) :: rest => m :: allocated rest
  | _ :: rest => allocated rest

/-- Whether `a` is `mosquitto_destroy` on a handle and `b` is a library call on
that same handle. -/
def use_after_destroy (a b : Event) : Bool :=
  match a with
  | .mosquitto_destroy m => b.handle == some m
  | _ => false

/-- No library call of the run is made on a handle on which
`mosquitto_destroy` was called earlier in the run. -/
def no_use_after_destroy (evs : List Event) : Prop :=
  evs.Pairwise fun a b => use_after_destroy a b = false

instance (evs : List Event) : Decidable (no_use_after_destroy evs) :=
  inferInstanceAs (Decidable (evs.Pairwise fun a b => use_after_destroy a b = false))

/-! ### The payload text -/

/-- Specification side: the value of a decimal digit character; `none` for any
other character. -/
def digit_value (c : Char) : Option Nat :=
  if '0' ≤ c ∧ c ≤ '9' then some (c.toNat - '0'.toNat) else none

/-- Specification side: reading characters as an unsigned decimal number, most
significant digit first, continuing from the value `acc` read so far. -/
def decimal_value_loop : List Char → Nat → Option Nat
  | [], acc => some acc
  | c :: cs, acc =>
    match digit_value c with
    | none => none
    | some d => decimal_value_loop cs (10 * acc + d)

/-- Specification side: the number a text denotes when parsed as an unsigned
decimal number; `none` for the empty text and for any text with a character
that is not a digit (a sign, a blank). -/
def decimal_value (s : String) : Option Nat :=
  match s.toList with
  | [] => none
  | c :: cs => decimal_value_loop (c :: cs) 0

/-! ### States used as examples -/

/-- A world whose counter has two cells, both filled (ids 10 and 20), a total
of 2 and a guard in its initial state. -/
def full_world : World :=
  { cm := { total_count := 2, seen_ids := fun i => if i = 0 then 10 else 20, seen_count := 2,
            overflow_warned := false },
    mq := GuardState.initial }

/-- The counter of `full_world` with a guard that holds handle 1 and is
connected. -/
def full_world_connected : World :=
  { cm := full_world.cm, mq := ⟨some 1, true, "broker", 1883⟩ }

/-! ### Sessions of the counter -/

/-- The counter states the program can be in: the one the static initialisers
give, and every state a call of `count_manager_init` or a returning call of
`count_manager_process_obj` (any arguments, any guard state, any answers of the
library) leaves from such a state. -/
inductive ProgramReachable (cap : Nat) : CounterState → Prop where
  | initial : ProgramReachable cap CounterState.initial
  | init (s : CounterState) : ProgramReachable cap s →
      ProgramReachable cap (count_manager_init s).1
  | process_obj (class_id : Int) (object_id : Nat) (t : Transport) (w w1 : World)
      (ev : List Event) :
      ProgramReachable cap w.cm →
      count_manager_process_obj cap class_id object_id t w = some (w1, ev) →
      ProgramReachable cap w1.cm

/-- One call on the counter after its reset: `count_manager_process_obj` or
`count_manager_get_total`. -/
inductive CounterOp where
  | process_obj (c : ObjCall)
  | get_total
deriving DecidableEq, Repr

/-- The calls of `ops` made one after the other from `w`: the final state and,
per call, the value returned (`count_manager_get_total` only) and the events;
`none` when a call leaves the array. -/
def counter_run (cap : Nat) : List CounterOp → World →
    Option (World × List (Option Nat × List Event))
  | [], w => some (w, [])
  | .process_obj c :: rest, w =>
    match count_manager_process_obj cap c.class_id c.object_id c.transport w with
    | none => none
    | some (w1, ev) =>
      match counter_run cap rest w1 with
      | none => none
      | some (w2, out) => some (w2, (none, ev) :: out)
  | .get_total :: rest, w =>
    match counter_run cap rest w with
    | none => none
    | some (w2, out) =>
      some (w2, (some (count_manager_get_total w.cm).1, (count_manager_get_total w.cm).2) :: out)

/-- Two counter states that no call can tell apart: same total, same fill
level, same warning flag and the same ids in the cells below the fill level. -/
def CounterState.same_view (s1 s2 : CounterState) : Prop :=
  s1.total_count = s2.total_count ∧ s1.seen_count = s2.seen_count ∧
  s1.overflow_warned = s2.overflow_warned ∧ s1.stored = s2.stored

/-- Whether the call is one of class 1 whose id is not stored while the array
is already full. -/
def is_overflowing (cap : Nat) (c : ObjCall) (s : CounterState) : Bool :=
  decide (c.class_id = 1) && !decide (c.object_id ∈ s.stored) &&
    decide (s.seen_count = (cap : Int))

/-- For each call of a sequence, whether it is one of class 1 whose id is not
stored while the array is full, in the state the calls before it leave. -/
def overflowing_calls (cap : Nat) : List ObjCall → World → List Bool
  | [], _ => []
  | c :: rest, w =>
    is_overflowing cap c w.cm ::
      match count_manager_process_obj cap c.class_id c.object_id c.transport w with
      | none => []
      | some (w1, _) => overflowing_calls cap rest w1

/-- The list with only its first `true` kept. -/
def first_true_only : List Bool → List Bool
  | [] => []
  | true :: rest => true :: rest.map fun _ => false
  | false :: rest => false :: first_true_only rest

/-- How often each call of a run wrote the overflow warning. -/
def warning_counts (evs : List (List Event)) : List Nat :=
  evs.map fun ev => ev.count Event.overflow_warning

/-! ### Locks -/

/-- The pairs (lock already held, lock acquired) that occur in a run of events
that starts with the locks `held` taken. -/
def acquired_under : List Lock → List Event → List (Lock × Lock)
  | _, [] => []
  | held, Event.lock l :: rest => held.map (fun h => (h, l)) ++ acquired_under (l :: held) rest
  | held, Event.unlock l :: rest => acquired_under (held.erase l) rest
  | held, _ :: rest => acquired_under held rest

/-- The locks held after a run of events that starts with the locks `held`
taken. -/
def held_after : List Lock → List Event → List Lock
  | held, [] => held
  | held, Event.lock l :: rest => held_after (l :: held) rest
  | held, Event.unlock l :: rest => held_after (held.erase l) rest
  | held, _ :: rest => held_after held rest

/-- Whether the event is the taking or the release of a mutex. -/
def Event.isLockEvent : Event → Bool
  | .lock _ => true
  | .unlock _ => true
  | _ => false

/-- The lock and unlock events of a run, in order. -/
def lock_events (evs : List Event) : List Event :=
  evs.filter Event.isLockEvent

/-- The lock and unlock events of a run together with the calls of
`mqtt_client_publish`, in order. -/
def sync_events (evs : List Event) : List Event :=
  evs.filter fun e => e.isLockEvent || e.isPublishRequest

/-! ### More example states -/

/-- A counter whose `MAX_TRACKED` cells are all filled (cell `i` holds id `i`)
and whose total is the largest 64-bit value. -/
def saturated_at_max : CounterState :=
  { total_count := 2 ^ 64 - 1, seen_ids := fun i => i, seen_count := (MAX_TRACKED : Int),
    overflow_warned := true }


/-- A full two-cell counter (ids 10 and 20) whose total is the largest 64-bit
value, with a guard in its initial state. -/
def full_world_at_max : World :=
  { cm := { total_count := 2 ^ 64 - 1, seen_ids := fun i => if i = 0 then 10 else 20,
            seen_count := 2, overflow_warned := true },
    mq := GuardState.initial }

/-! ## The counter: single calls and the invariant -/

theorem has_seen_loop_eq (cap : Nat) (a : Nat → Nat) (id : Nat) :
    ∀ (n i : Nat), i + n ≤ cap →
      has_seen_loop cap a id n i = some (decide (id ∈ (List.range' i n).map a)) := by
  intro n
  induction n with
  | zero => intro i _; simp [has_seen_loop]
  | succ n ih =>
    intro i h
    have hi : i < cap := by omega
    by_cases hx : a i = id
    · simp [has_seen_loop, hi, hx, List.range'_succ]
    · have hx' : ¬ id = a i := fun e => hx e.symm
      rw [has_seen_loop, if_pos hi, if_neg hx, ih (i + 1) (by omega)]
      simp [List.range'_succ, hx']

theorem has_seen_before_locked_eq (cap : Nat) (id : Nat) (s : CounterState)
    (h : s.seen_count ≤ (cap : Int)) :
    has_seen_before_locked cap id s = some (decide (id ∈ s.stored)) := by
  unfold has_seen_before_locked CounterState.stored
  rw [has_seen_loop_eq cap s.seen_ids id _ 0 (by omega), List.range_eq_range']

theorem stored_after_write (a : Nat → Nat) (n : Nat) (id : Nat) :
    (List.range (n + 1)).map (fun i => if i = n then id else a i)
      = (List.range n).map a ++ [id] := by
  rw [List.range_succ, List.map_append]
  congr 1
  · apply List.map_congr_left
    intro i hi
    have : i ≠ n := by
      have := List.mem_range.mp hi
      omega
    simp [this]
  · simp


theorem stored_length (s : CounterState) : s.stored.length = s.seen_count.toNat := by
  simp [CounterState.stored]

theorem stored_inserted (id : Nat) (s : CounterState) (h0 : 0 ≤ s.seen_count) :
    (s.inserted id).stored = s.stored ++ [id] := by
  unfold CounterState.stored CounterState.inserted
  have e : (s.seen_count + 1).toNat = s.seen_count.toNat + 1 := by omega
  simp only [e]
  exact stored_after_write s.seen_ids s.seen_count.toNat id

theorem process_obj_other (cap : Nat) (class_id : Int) (id : Nat) (t : Transport) (w : World)
    (hc : class_id ≠ 1) :
    count_manager_process_obj cap class_id id t w = some (w, []) := by
  simp [count_manager_process_obj, hc]

theorem process_obj_present (cap : Nat) (id : Nat) (t : Transport) (w : World)
    (hle : w.cm.seen_count ≤ (cap : Int)) (hin : id ∈ w.cm.stored) :
    count_manager_process_obj cap 1 id t w
      = some (w, [Event.lock Lock.cm_lock, Event.unlock Lock.cm_lock]) := by
  simp [count_manager_process_obj, has_seen_before_locked_eq cap id w.cm hle, hin]

theorem process_obj_insert (cap : Nat) (id : Nat) (t : Transport) (w : World)
    (h0 : 0 ≤ w.cm.seen_count) (hlt : w.cm.seen_count < (cap : Int)) (hin : id ∉ w.cm.stored) :
    count_manager_process_obj cap 1 id t w
      = some ({ cm := w.cm.inserted id,
                mq := (mqtt_client_publish (some "deepstream/count")
                        (some (snprintf_llu 64 ((w.cm.total_count + 1) % 2 ^ 64))) t w.mq).2.1 },
              [Event.lock Lock.cm_lock]
                ++ (mqtt_client_publish (some "deepstream/count")
                      (some (snprintf_llu 64 ((w.cm.total_count + 1) % 2 ^ 64))) t w.mq).2.2
                ++ [Event.unlock Lock.cm_lock]) := by
  simp [count_manager_process_obj, has_seen_before_locked_eq cap id w.cm (le_of_lt hlt), hin,
    mark_seen_locked, hlt, h0, CounterState.inserted]

theorem process_obj_reject (cap : Nat) (id : Nat) (t : Transport) (w : World)
    (hfull : w.cm.seen_count = (cap : Int)) (hin : id ∉ w.cm.stored) :
    count_manager_process_obj cap 1 id t w
      = some ({ cm := w.cm.rejected,
                mq := (mqtt_client_publish (some "deepstream/count")
                        (some (snprintf_llu 64 ((w.cm.total_count + 1) % 2 ^ 64))) t w.mq).2.1 },
              [Event.lock Lock.cm_lock]
                ++ (if w.cm.overflow_warned then [] else [Event.overflow_warning])
                ++ (mqtt_client_publish (some "deepstream/count")
                      (some (snprintf_llu 64 ((w.cm.total_count + 1) % 2 ^ 64))) t w.mq).2.2
                ++ [Event.unlock Lock.cm_lock]) := by
  cases hw : w.cm.overflow_warned <;>
  simp [count_manager_process_obj, has_seen_before_locked_eq cap id w.cm (le_of_eq hfull), hin,
    mark_seen_locked, hfull, hw, CounterState.rejected]


theorem counterInv_init (cap : Nat) (s : CounterState) :
    CounterInv cap (count_manager_init s).1 := by
  constructor <;> simp [count_manager_init, CounterState.stored]

theorem counterInv_inserted (cap : Nat) (hcap : cap ≤ 2 ^ 64) (id : Nat) (s : CounterState)
    (hinv : CounterInv cap s) (hlt : s.seen_count < (cap : Int)) (hin : id ∉ s.stored) :
    CounterInv cap (s.inserted id) := by
  have h0 := hinv.nonneg
  refine ⟨?_, ?_, ?_, ?_⟩
  · simp only [CounterState.inserted]; omega
  · simp only [CounterState.inserted]; omega
  · rw [stored_inserted id s h0]
    exact List.Nodup.append hinv.nodup (List.nodup_singleton id) (by simpa using hin)
  · intro hnext
    have ht := hinv.total_eq hlt
    simp only [CounterState.inserted] at hnext ⊢
    rw [ht, Nat.mod_eq_of_lt (by omega)]
    omega

theorem process_all_tracked (cap : Nat) (hcap : cap ≤ 2 ^ 64) :
    ∀ (calls : List ObjCall) (w : World), (∀ c ∈ calls, c.class_id = 1) →
      CounterInv cap w.cm →
      (w.cm.stored ++ ids_of calls).toFinset.card < cap →
      ∃ w1 evs, process_all cap calls w = some (w1, evs) ∧ CounterInv cap w1.cm ∧
        w1.cm.stored.toFinset = (w.cm.stored ++ ids_of calls).toFinset := by
  intro calls
  induction calls with
  | nil =>
    intro w _ hinv _
    exact ⟨w, [], rfl, hinv, by simp [ids_of]⟩
  | cons c rest ih =>
    intro w hcls hinv hcard
    have hc1 : c.class_id = 1 := hcls c (List.mem_cons_self _ _)
    have hrest : ∀ d ∈ rest, d.class_id = 1 := fun d hd => hcls d (List.mem_cons_of_mem _ hd)
    by_cases hin : c.object_id ∈ w.cm.stored
    · have hset : (w.cm.stored ++ ids_of (c :: rest)).toFinset
          = (w.cm.stored ++ ids_of rest).toFinset := by
        ext x
        simp only [ids_of, List.map_cons, List.toFinset_append, List.toFinset_cons,
          Finset.mem_union, Finset.mem_insert, List.mem_toFinset]
        constructor
        · rintro (h | h | h)
          · exact Or.inl h
          · exact Or.inl (h ▸ hin)
          · exact Or.inr h
        · rintro (h | h)
          · exact Or.inl h
          · exact Or.inr (Or.inr h)
      obtain ⟨w1, evs, hrun, hinv1, hst⟩ := ih w hrest hinv (by rw [← hset]; exact hcard)
      simp only [process_all, hc1,
        process_obj_present cap c.object_id c.transport w hinv.le_cap hin, hrun]
      exact ⟨w1, _, rfl, hinv1, by rw [hst, hset]⟩
    · have hsub : (w.cm.stored ++ [c.object_id]).toFinset.card
          ≤ (w.cm.stored ++ ids_of (c :: rest)).toFinset.card := by
        apply Finset.card_le_card
        intro x
        simp only [ids_of, List.map_cons, List.toFinset_append, List.toFinset_cons,
          Finset.mem_union, Finset.mem_insert, List.mem_toFinset, List.toFinset_nil,
          insert_emptyc_eq, Finset.mem_singleton]
        rintro (h | h)
        · exact Or.inl h
        · exact Or.inr (Or.inl h)
      have hnd : (w.cm.stored ++ [c.object_id]).Nodup :=
        List.Nodup.append hinv.nodup (List.nodup_singleton _) (by simpa using hin)
      have hlen : (w.cm.stored ++ [c.object_id]).toFinset.card = w.cm.seen_count.toNat + 1 := by
        rw [List.toFinset_card_of_nodup hnd, List.length_append, stored_length]
        simp
      have h0 := hinv.nonneg
      have hlt : w.cm.seen_count < (cap : Int) := by omega
      obtain ⟨g1, ev1, hstep⟩ : ∃ g1 ev1, count_manager_process_obj cap 1 c.object_id c.transport w
          = some ({ cm := w.cm.inserted c.object_id, mq := g1 }, ev1) :=
        ⟨_, _, process_obj_insert cap c.object_id c.transport w h0 hlt hin⟩
      have hinv1 := counterInv_inserted cap hcap c.object_id w.cm hinv hlt hin
      have hst1 := stored_inserted c.object_id w.cm h0
      have hset : (w.cm.stored ++ ids_of (c :: rest)).toFinset
          = ((w.cm.inserted c.object_id).stored ++ ids_of rest).toFinset := by
        rw [hst1]
        simp [ids_of]
      obtain ⟨w1, evs, hrun, hinv2, hst⟩ :=
        ih { cm := w.cm.inserted c.object_id, mq := g1 } hrest hinv1 (by rw [← hset]; exact hcard)
      simp only [process_all, hc1, hstep, hrun]
      exact ⟨w1, _, rfl, hinv2, by rw [hst, hset]⟩


theorem counterInv_rejected (cap : Nat) (s : CounterState) (hinv : CounterInv cap s)
    (hfull : s.seen_count = (cap : Int)) : CounterInv cap s.rejected := by
  refine ⟨hinv.nonneg, hinv.le_cap, hinv.nodup, ?_⟩
  intro h
  simp only [CounterState.rejected] at h
  omega

/-- The three things a returning call can do to a counter state that satisfies
the invariant. -/
theorem process_obj_cases (cap : Nat) (class_id : Int) (id : Nat) (t : Transport)
    (w w1 : World) (ev : List Event) (hinv : CounterInv cap w.cm)
    (h : count_manager_process_obj cap class_id id t w = some (w1, ev)) :
    w1 = w ∨
    (class_id = 1 ∧ id ∉ w.cm.stored ∧ w.cm.seen_count < (cap : Int) ∧ w1.cm = w.cm.inserted id) ∨
    (class_id = 1 ∧ id ∉ w.cm.stored ∧ w.cm.seen_count = (cap : Int) ∧ w1.cm = w.cm.rejected) := by
  by_cases hc : class_id = 1
  · subst hc
    by_cases hin : id ∈ w.cm.stored
    · rw [process_obj_present cap id t w hinv.le_cap hin] at h
      left
      simp only [Option.some.injEq, Prod.mk.injEq] at h
      exact h.1.symm
    · by_cases hlt : w.cm.seen_count < (cap : Int)
      · rw [process_obj_insert cap id t w hinv.nonneg hlt hin] at h
        simp only [Option.some.injEq, Prod.mk.injEq] at h
        right; left
        exact ⟨rfl, hin, hlt, by rw [← h.1]⟩
      · have hfull : w.cm.seen_count = (cap : Int) := le_antisymm hinv.le_cap (not_lt.mp hlt)
        rw [process_obj_reject cap id t w hfull hin] at h
        simp only [Option.some.injEq, Prod.mk.injEq] at h
        right; right
        exact ⟨rfl, hin, hfull, by rw [← h.1]⟩
  · rw [process_obj_other cap class_id id t w hc] at h
    left
    simp only [Option.some.injEq, Prod.mk.injEq] at h
    exact h.1.symm

theorem counterInv_of_reachable (cap : Nat) (hcap : cap ≤ 2 ^ 64) (s : CounterState)
    (hr : CounterReachable cap s) : CounterInv cap s := by
  induction hr with
  | init s => exact counterInv_init cap s
  | process_obj class_id id t w w1 ev _ hstep ih =>
    rcases process_obj_cases cap class_id id t w w1 ev ih hstep with h | h | h
    · rw [h]; exact ih
    · rw [h.2.2.2]; exact counterInv_inserted cap hcap id w.cm ih h.2.2.1 h.2.1
    · rw [h.2.2.2]; exact counterInv_rejected cap w.cm ih h.2.2.1

theorem process_all_present (cap : Nat) (id : Nat) (t : Nat → Transport) (w : World)
    (hle : w.cm.seen_count ≤ (cap : Int)) (hin : id ∈ w.cm.stored) (k : Nat) :
    process_all cap (repeated id t k) w
      = some (w, List.replicate k [Event.lock Lock.cm_lock, Event.unlock Lock.cm_lock]) := by
  induction k generalizing t with
  | zero => simp [repeated, process_all]
  | succ k ih =>
    have hsplit : repeated id t (k + 1)
        = { class_id := 1, object_id := id, transport := t 0 }
            :: repeated id (fun i => t (i + 1)) k := by
      simp [repeated, List.range_succ_eq_map, List.map_map, Function.comp_def]
    rw [hsplit]
    simp only [process_all, process_obj_present cap id (t 0) w hle hin, ih, List.replicate_succ]


theorem process_all_rejected (cap : Nat) (id : Nat) (t : Nat → Transport) (k : Nat) :
    ∀ (w : World), w.cm.seen_count = (cap : Int) → id ∉ w.cm.stored →
      ∃ wk evs, process_all cap (repeated id t k) w = some (wk, evs) ∧
        wk.cm.total_count = (if k = 0 then w.cm.total_count else (w.cm.total_count + k) % 2 ^ 64) ∧
        wk.cm.seen_ids = w.cm.seen_ids ∧ wk.cm.seen_count = w.cm.seen_count := by
  induction k generalizing t with
  | zero => intro w _ _; exact ⟨w, [], by simp [repeated, process_all], by simp, rfl, rfl⟩
  | succ k ih =>
    intro w hfull hin
    have hsplit : repeated id t (k + 1)
        = { class_id := 1, object_id := id, transport := t 0 }
            :: repeated id (fun i => t (i + 1)) k := by
      simp [repeated, List.range_succ_eq_map, List.map_map, Function.comp_def]
    obtain ⟨g1, ev1, h1⟩ : ∃ g1 ev1, count_manager_process_obj cap 1 id (t 0) w
        = some ({ cm := w.cm.rejected, mq := g1 }, ev1) :=
      ⟨_, _, process_obj_reject cap id (t 0) w hfull hin⟩
    obtain ⟨wk, evs, hrun, htot, hids, hcnt⟩ :=
      ih (fun i => t (i + 1)) { cm := w.cm.rejected, mq := g1 } hfull hin
    refine ⟨wk, ev1 :: evs, ?_, ?_, hids, hcnt⟩
    · rw [hsplit]; simp only [process_all, h1, hrun]
    · rw [htot]
      simp only [CounterState.rejected]
      by_cases hk : k = 0
      · simp [hk]
      · simp only [hk, if_false, Nat.succ_ne_zero]
        rw [Nat.mod_add_mod]
        congr 1
        omega


/-! ## The publish guard: steps and runs -/

theorem do_publish_not_connected (topic : String) (payload : String) (payloadlen : Nat)
    (qos : Int) (retain : Bool) (t : Transport) (g : GuardState)
    (h : g.mosq = none ∨ g.mqtt_connected = false) :
    mqtt_do_publish (some topic) payload payloadlen qos retain t g
      = (MOSQ_ERR_NO_CONN, g, [Event.lock Lock.mqtt_lock, Event.unlock Lock.mqtt_lock]) := by
  rcases h with h | h
  · simp [mqtt_do_publish, h]
  · cases hm : g.mosq <;> simp [mqtt_do_publish, h, hm]

/-- A publish operation on a guard that is not usable changes nothing, makes no
library call, and its status, if it has one, is `MOSQ_ERR_NO_CONN`. -/
theorem guard_step_publish_unusable (op : GuardOp) (g : GuardState)
    (h : g.mosq = none ∨ g.mqtt_connected = false) (hp : op.isPublish = true) :
    (guard_step op g).2.1 = g ∧ transportCalls (guard_step op g).2.2 = [] ∧
    ((guard_step op g).1 = none ∨ (guard_step op g).1 = some MOSQ_ERR_NO_CONN) := by
  cases op with
  | publish topic payload t =>
    cases topic <;> cases payload <;>
      simp [guard_step, mqtt_client_publish, do_publish_not_connected, h, transportCalls,
        Event.isTransportCall]
  | publish_uint64 topic value t =>
    cases topic <;>
      simp [guard_step, mqtt_client_publish_uint64, do_publish_not_connected, h, transportCalls,
        Event.isTransportCall]
  | init _ _ _ => simp [GuardOp.isPublish] at hp
  | connect_notification _ => simp [GuardOp.isPublish] at hp
  | disconnect_notification _ => simp [GuardOp.isPublish] at hp
  | deinit => simp [GuardOp.isPublish] at hp

/-- The flag is set by nothing but a connect notification with status 0. -/
theorem guard_step_flag (op : GuardOp) (g : GuardState)
    (h : (guard_step op g).2.1.mqtt_connected = true) :
    g.mqtt_connected = true ∨ op = GuardOp.connect_notification 0 := by
  by_cases hg : g.mqtt_connected = true
  · exact Or.inl hg
  · right
    have hf : g.mqtt_connected = false := by simpa using hg
    cases op with
    | publish topic payload t =>
      have := (guard_step_publish_unusable (GuardOp.publish topic payload t) g (Or.inr hf) rfl).1
      rw [this] at h; exact absurd h hg
    | publish_uint64 topic value t =>
      have := (guard_step_publish_unusable (GuardOp.publish_uint64 topic value t) g
        (Or.inr hf) rfl).1
      rw [this] at h; exact absurd h hg
    | init host port t =>
      exfalso
      revert h
      cases host with
      | none => simp [guard_step, mqtt_client_init, hf]
      | some hs =>
        simp only [guard_step, mqtt_client_init]
        cases t.new_result <;> split_ifs <;> simp [hf]
    | connect_notification rc =>
      simp only [guard_step, on_connect, decide_eq_true_eq] at h
      rw [h]
    | disconnect_notification rc => simp [guard_step, on_disconnect] at h
    | deinit =>
      exfalso
      revert h
      simp only [guard_step, mqtt_client_deinit]
      cases g.mosq <;> simp [hf]


/-- While no connect notification with status 0 arrives, a cleared flag stays
cleared, and every publish operation is refused without a library call. -/
theorem guard_run_latched (ops : List GuardOp) :
    ∀ (g : GuardState), g.mqtt_connected = false →
      (∀ op ∈ ops, op ≠ GuardOp.connect_notification 0) →
      (guard_run ops g).1.mqtt_connected = false ∧
      ∀ p ∈ List.zip ops (guard_run ops g).2, p.1.isPublish = true →
        (p.2.1 = none ∨ p.2.1 = some MOSQ_ERR_NO_CONN) ∧ transportCalls p.2.2 = [] := by
  induction ops with
  | nil => intro g hg _; simp [guard_run, hg]
  | cons op rest ih =>
    intro g hg hops
    have hne : op ≠ GuardOp.connect_notification 0 := hops op (List.mem_cons_self _ _)
    have hnext : (guard_step op g).2.1.mqtt_connected = false := by
      by_contra hcon
      have ht : (guard_step op g).2.1.mqtt_connected = true := by simpa using hcon
      rcases guard_step_flag op g ht with h | h
      · rw [hg] at h; exact absurd h (by decide)
      · exact hne h
    obtain ⟨hfin, hrest⟩ := ih (guard_step op g).2.1 hnext
      (fun o ho => hops o (List.mem_cons_of_mem _ ho))
    refine ⟨by simpa [guard_run] using hfin, ?_⟩
    intro p hp hpub
    simp only [guard_run, List.zip_cons_cons, List.mem_cons] at hp
    rcases hp with hp | hp
    · subst hp
      have := guard_step_publish_unusable op g (Or.inr hg) hpub
      exact ⟨this.2.2, this.2.1⟩
    · exact hrest p hp hpub

theorem guard_step_status_some (op : GuardOp) (g : GuardState)
    (h : op.reachesDoPublish = true) : (guard_step op g).1 ≠ none := by
  cases op with
  | publish topic payload t =>
    cases topic <;> cases payload <;> simp [GuardOp.reachesDoPublish] at h
    simp [guard_step, mqtt_client_publish]
  | publish_uint64 topic value t =>
    cases topic <;> simp [GuardOp.reachesDoPublish] at h
    simp [guard_step, mqtt_client_publish_uint64]
  | init _ _ _ => simp [GuardOp.reachesDoPublish] at h
  | connect_notification _ => simp [GuardOp.reachesDoPublish] at h
  | disconnect_notification _ => simp [GuardOp.reachesDoPublish] at h
  | deinit => simp [GuardOp.reachesDoPublish] at h

theorem guard_run_status_some (ops : List GuardOp) :
    ∀ (g : GuardState), ∀ p ∈ List.zip ops (guard_run ops g).2,
      p.1.reachesDoPublish = true → p.2.1 ≠ none := by
  induction ops with
  | nil => intro g p hp; simp [guard_run] at hp
  | cons op rest ih =>
    intro g p hp hr
    simp only [guard_run, List.zip_cons_cons, List.mem_cons] at hp
    rcases hp with hp | hp
    · subst hp
      exact guard_step_status_some op g hr
    · exact ih _ p hp hr

theorem reachesDoPublish_isPublish (op : GuardOp) (h : op.reachesDoPublish = true) :
    op.isPublish = true := by
  cases op <;> simp_all [GuardOp.reachesDoPublish, GuardOp.isPublish]


theorem init_invalid (host : Option String) (port : Int) (t : Transport) (g : GuardState)
    (h : host = none ∨ port ≤ 0) : mqtt_client_init host port t g = (g, []) := by
  cases host with
  | none => rfl
  | some hs =>
    rcases h with h | h
    · exact absurd h (by simp)
    · simp [mqtt_client_init, h]

/-- The guard state after a failed `mqtt_client_init` with valid arguments, by
the call that failed. -/
theorem init_failure_state (host : String) (port : Int) (t : Transport) (g : GuardState)
    (hport : 0 < port) :
    (t.new_result = none →
      (mqtt_client_init (some host) port t g).1
        = { mosq := none, mqtt_connected := g.mqtt_connected, last_host := strncpy host 255,
            last_port := port }) ∧
    (∀ m, t.new_result = some m → t.loop_start_rc ≠ MOSQ_ERR_SUCCESS →
      (mqtt_client_init (some host) port t g).1
        = { mosq := none, mqtt_connected := g.mqtt_connected, last_host := strncpy host 255,
            last_port := port }) ∧
    (∀ m, t.new_result = some m → t.loop_start_rc = MOSQ_ERR_SUCCESS →
      t.connect_async_rc ≠ MOSQ_ERR_SUCCESS →
      (mqtt_client_init (some host) port t g).1
        = { mosq := some m, mqtt_connected := false, last_host := strncpy host 255,
            last_port := port }) := by
  have hp : ¬ port ≤ 0 := not_le.mpr hport
  refine ⟨?_, ?_, ?_⟩
  · intro hn
    simp [mqtt_client_init, hp, hn]
  · intro m hn hl
    simp [mqtt_client_init, hp, hn, hl]
  · intro m hn hl hc
    simp [mqtt_client_init, hp, hn, hl, hc]


/-! ## The publish guard: handles in the trace -/

theorem allocated_append (a b : List Event) : allocated (a ++ b) = allocated a ++ allocated b := by
  induction a with
  | nil => rfl
  | cons e rest ih =>
    cases e with
    | mosquitto_new r => cases r <;> simp [allocated, ih]
    | _ => simp [allocated, ih]

theorem guard_events_cons (op : GuardOp) (rest : List GuardOp) (g : GuardState) :
    guard_events (op :: rest) g
      = (guard_step op g).2.2 ++ guard_events rest (guard_step op g).2.1 := by
  simp [guard_events, guard_run]

/-- What one guard operation does with handles: within its own events nothing
follows a destroy on the same handle; every handle it calls the library on is
the stored one or one it has just allocated; after a destroy no handle is
stored; and the handle stored afterwards is the old one or a new allocation. -/
theorem guard_step_handles (op : GuardOp) (g : GuardState) :
    no_use_after_destroy (guard_step op g).2.2 ∧
    (∀ e ∈ (guard_step op g).2.2, ∀ h, e.handle = some h →
      g.mosq = some h ∨ h ∈ allocated (guard_step op g).2.2) ∧
    (∀ h, Event.mosquitto_destroy h ∈ (guard_step op g).2.2 →
      (guard_step op g).2.1.mosq = none) ∧
    (∀ h, (guard_step op g).2.1.mosq = some h →
      g.mosq = some h ∨ h ∈ allocated (guard_step op g).2.2) := by
  cases op with
  | init host port t =>
    cases host with
    | none =>
      simp [guard_step, mqtt_client_init, no_use_after_destroy, allocated]
    | some hs =>
      by_cases hp : port ≤ 0
      · simp [guard_step, mqtt_client_init, hp, no_use_after_destroy, allocated]
      · cases hn : t.new_result with
        | none =>
          simp [guard_step, mqtt_client_init, hp, hn, no_use_after_destroy, use_after_destroy,
            Event.handle, allocated]
        | some m =>
          by_cases hl : t.loop_start_rc = MOSQ_ERR_SUCCESS <;>
          by_cases hc : t.connect_async_rc = MOSQ_ERR_SUCCESS <;>
          simp [guard_step, mqtt_client_init, hp, hn, hl, hc, no_use_after_destroy,
            use_after_destroy, Event.handle, allocated]
  | publish topic payload t =>
    cases topic <;> cases payload <;> cases hm : g.mosq <;> cases hc : g.mqtt_connected <;>
    by_cases hrc : t.publish_rc = MOSQ_ERR_SUCCESS <;>
    simp [guard_step, mqtt_client_publish, mqtt_do_publish, hm, hc, hrc, no_use_after_destroy,
      use_after_destroy, Event.handle, allocated]
  | publish_uint64 topic value t =>
    cases topic <;> cases hm : g.mosq <;> cases hc : g.mqtt_connected <;>
    by_cases hrc : t.publish_rc = MOSQ_ERR_SUCCESS <;>
    simp [guard_step, mqtt_client_publish_uint64, mqtt_do_publish, hm, hc, hrc,
      no_use_after_destroy, use_after_destroy, Event.handle, allocated]
  | connect_notification rc =>
    simp [guard_step, on_connect, no_use_after_destroy, use_after_destroy, Event.handle, allocated]
  | disconnect_notification rc =>
    simp [guard_step, on_disconnect, no_use_after_destroy, use_after_destroy, Event.handle,
      allocated]
  | deinit =>
    cases hm : g.mosq <;>
    simp [guard_step, mqtt_client_deinit, hm, no_use_after_destroy, use_after_destroy,
      Event.handle, allocated]


/-- Every handle the library is called on during a run is the one stored at
the start or one allocated during the run. -/
theorem guard_events_handles (ops : List GuardOp) :
    ∀ (g : GuardState), ∀ e ∈ guard_events ops g, ∀ h, e.handle = some h →
      g.mosq = some h ∨ h ∈ allocated (guard_events ops g) := by
  induction ops with
  | nil => intro g e he; simp [guard_events, guard_run] at he
  | cons op rest ih =>
    intro g e he h hh
    obtain ⟨_, huse, _, hnext⟩ := guard_step_handles op g
    rw [guard_events_cons, allocated_append]
    rw [guard_events_cons] at he
    rcases List.mem_append.mp he with he | he
    · rcases huse e he h hh with h1 | h1
      · exact Or.inl h1
      · exact Or.inr (List.mem_append_left _ h1)
    · rcases ih _ e he h hh with h1 | h1
      · rcases hnext h h1 with h2 | h2
        · exact Or.inl h2
        · exact Or.inr (List.mem_append_left _ h2)
      · exact Or.inr (List.mem_append_right _ h1)

/-- When `mosquitto_new` never returns the same handle twice, nor the handle
stored at the start, no library call follows a destroy of its handle. -/
theorem guard_events_safe (ops : List GuardOp) :
    ∀ (g : GuardState), (allocated (guard_events ops g)).Nodup →
      (∀ h, g.mosq = some h → h ∉ allocated (guard_events ops g)) →
      no_use_after_destroy (guard_events ops g) := by
  induction ops with
  | nil => intro g _ _; simp [guard_events, guard_run, no_use_after_destroy]
  | cons op rest ih =>
    intro g hnd hold
    obtain ⟨hown, huse, hdead, hnext⟩ := guard_step_handles op g
    rw [guard_events_cons, allocated_append] at hnd hold
    rw [guard_events_cons]
    have hdisj := List.disjoint_of_nodup_append hnd
    have hrest : no_use_after_destroy (guard_events rest (guard_step op g).2.1) := by
      apply ih _ (List.Nodup.of_append_right hnd)
      intro h hh hmem
      rcases hnext h hh with h1 | h1
      · exact hold h h1 (List.mem_append_right _ hmem)
      · exact hdisj h1 hmem
    unfold no_use_after_destroy at hown hrest ⊢
    rw [List.pairwise_append]
    refine ⟨hown, hrest, ?_⟩
    intro a ha b hb
    cases a with
    | mosquitto_destroy m =>
      simp only [use_after_destroy, beq_eq_false_iff_ne, ne_eq]
      intro hbm
      rcases guard_events_handles rest _ b hb m hbm with h1 | h1
      · rw [hdead m ha] at h1
        exact absurd h1 (by simp)
      · rcases huse _ ha m rfl with h2 | h2
        · exact hold m h2 (List.mem_append_right _ h1)
        · exact hdisj h2 h1
    | _ => rfl

/-- Without a call of `mqtt_client_init` an absent handle stays absent, and
every publish operation is refused without a library call. -/
theorem guard_run_no_handle (ops : List GuardOp) :
    ∀ (g : GuardState), g.mosq = none → (∀ op ∈ ops, op.isInit = false) →
      (guard_run ops g).1.mosq = none ∧
      ∀ p ∈ List.zip ops (guard_run ops g).2, p.1.isPublish = true →
        (p.2.1 = none ∨ p.2.1 = some MOSQ_ERR_NO_CONN) ∧ transportCalls p.2.2 = [] := by
  induction ops with
  | nil => intro g hg _; simp [guard_run, hg]
  | cons op rest ih =>
    intro g hg hops
    have hni : op.isInit = false := hops op (List.mem_cons_self _ _)
    have hnext : (guard_step op g).2.1.mosq = none := by
      cases op with
      | init _ _ _ => simp [GuardOp.isInit] at hni
      | publish topic payload t =>
        rw [(guard_step_publish_unusable (GuardOp.publish topic payload t) g (Or.inl hg) rfl).1]
        exact hg
      | publish_uint64 topic value t =>
        rw [(guard_step_publish_unusable (GuardOp.publish_uint64 topic value t) g
          (Or.inl hg) rfl).1]
        exact hg
      | connect_notification rc => simpa [guard_step, on_connect] using hg
      | disconnect_notification rc => simpa [guard_step, on_disconnect] using hg
      | deinit => simp [guard_step, mqtt_client_deinit, hg]
    obtain ⟨hfin, hrest⟩ := ih (guard_step op g).2.1 hnext
      (fun o ho => hops o (List.mem_cons_of_mem _ ho))
    refine ⟨by simpa [guard_run] using hfin, ?_⟩
    intro p hp hpub
    simp only [guard_run, List.zip_cons_cons, List.mem_cons] at hp
    rcases hp with hp | hp
    · subst hp
      have := guard_step_publish_unusable op g (Or.inl hg) hpub
      exact ⟨this.2.2, this.2.1⟩
    · exact hrest p hp hpub


/-! ## The text of the published total -/

theorem toDigitsCore_acc (f : Nat) :
    ∀ (n : Nat) (ds : List Char),
      Nat.toDigitsCore 10 f n ds = Nat.toDigitsCore 10 f n [] ++ ds := by
  induction f with
  | zero => intro n ds; simp [Nat.toDigitsCore]
  | succ f ih =>
    intro n ds
    simp only [Nat.toDigitsCore]
    by_cases h : n / 10 = 0
    · simp [h]
    · simp only [h, if_false]
      rw [ih (n / 10) (Nat.digitChar (n % 10) :: ds), ih (n / 10) [Nat.digitChar (n % 10)]]
      simp

theorem decimal_value_loop_append (xs ys : List Char) :
    ∀ acc, decimal_value_loop (xs ++ ys) acc
      = (decimal_value_loop xs acc).bind (decimal_value_loop ys) := by
  induction xs with
  | nil => intro acc; simp [decimal_value_loop]
  | cons c cs ih =>
    intro acc
    simp only [List.cons_append, decimal_value_loop]
    cases digit_value c with
    | none => simp
    | some d => simp [ih]

theorem digit_value_digitChar : ∀ d, d < 10 → digit_value (Nat.digitChar d) = some d := by
  decide

theorem digitChar_ne_zero : ∀ d, d < 10 → d ≠ 0 → Nat.digitChar d ≠ '0' := by
  decide

/-- Parsing the digits that `Nat.toDigitsCore` produces gives the number back. -/
theorem decimal_value_toDigitsCore (f : Nat) :
    ∀ n, n < f → decimal_value_loop (Nat.toDigitsCore 10 f n []) 0 = some n := by
  induction f with
  | zero => intro n h; omega
  | succ f ih =>
    intro n hn
    simp only [Nat.toDigitsCore]
    have hd := digit_value_digitChar (n % 10) (Nat.mod_lt n (by decide))
    by_cases h : n / 10 = 0
    · have hlt : n < 10 := by omega
      simp only [h, if_true, decimal_value_loop, hd]
      congr 1
      omega
    · simp only [h, if_false]
      rw [toDigitsCore_acc f (n / 10) [Nat.digitChar (n % 10)], decimal_value_loop_append,
        ih (n / 10) (by omega)]
      simp only [Option.some_bind, decimal_value_loop, hd]
      congr 1
      omega

/-- The digits of a number other than 0 do not start with `'0'`. -/
theorem toDigitsCore_head (f : Nat) :
    ∀ n, n < f → n ≠ 0 → (Nat.toDigitsCore 10 f n []).head? ≠ some '0' ∧
      Nat.toDigitsCore 10 f n [] ≠ [] := by
  induction f with
  | zero => intro n h; omega
  | succ f ih =>
    intro n hn h0
    simp only [Nat.toDigitsCore]
    by_cases h : n / 10 = 0
    · have hlt : n < 10 := by omega
      have hm : n % 10 = n := Nat.mod_eq_of_lt hlt
      simp only [h, if_true, List.head?_cons, ne_eq, Option.some.injEq, hm]
      exact ⟨digitChar_ne_zero n hlt h0, by simp⟩
    · simp only [h, if_false]
      rw [toDigitsCore_acc f (n / 10) [Nat.digitChar (n % 10)]]
      obtain ⟨h1, h2⟩ := ih (n / 10) (by omega) h
      refine ⟨?_, by simp [h2]⟩
      rw [List.head?_append_of_ne_nil _ h2]
      exact h1

theorem toDigits_ne_nil (n : Nat) : Nat.toDigits 10 n ≠ [] := by
  unfold Nat.toDigits
  simp only [Nat.toDigitsCore]
  by_cases h : n / 10 = 0
  · simp [h]
  · simp only [h, if_false]
    rw [toDigitsCore_acc]
    simp

/-- What `snprintf(msg, 64, "%llu", v)` writes for a 64-bit `v`: all the
digits of `v`, at most 20, reading back as `v`, with no leading zero. -/
theorem snprintf_llu_spec (v : Nat) (hv : v < 2 ^ 64) :
    snprintf_llu 64 v = String.mk (Nat.toDigits 10 v) ∧
    snprintf_llu 64 v = Nat.repr v ∧
    (snprintf_llu 64 v).length ≤ 20 ∧
    decimal_value (snprintf_llu 64 v) = some v ∧
    (v = 0 ∧ snprintf_llu 64 v = "0" ∨
      v ≠ 0 ∧ (snprintf_llu 64 v).toList.head? ≠ some '0') := by
  have hlen : (Nat.toDigits 10 v).length ≤ 20 := by
    unfold Nat.toDigits
    exact Nat.toDigitsCore_length 10 (by decide) (v + 1) v 20
      (lt_of_lt_of_le hv (by norm_num)) (by decide)
  have htake : snprintf_llu 64 v = String.mk (Nat.toDigits 10 v) := by
    unfold snprintf_llu
    rw [List.take_of_length_le (by omega)]
  have hval : decimal_value (String.mk (Nat.toDigits 10 v)) = some v := by
    unfold decimal_value
    have hne := toDigits_ne_nil v
    cases hds : Nat.toDigits 10 v with
    | nil => exact absurd hds hne
    | cons c cs =>
      simp only [String.toList]
      rw [← hds]
      exact decimal_value_toDigitsCore (v + 1) v (Nat.lt_succ_self v)
  refine ⟨htake, ?_, ?_, ?_, ?_⟩
  · rw [htake]; rfl
  · rw [htake]; exact hlen
  · rw [htake]; exact hval
  · by_cases h0 : v = 0
    · left; subst h0; exact ⟨rfl, by decide⟩
    · right
      rw [htake]
      exact ⟨h0, (toDigitsCore_head (v + 1) v (Nat.lt_succ_self v) h0).1⟩


/-- The requests and library calls among the events of a `mqtt_client_publish`
call with non-null arguments. -/
theorem client_publish_events (tp pl : String) (t : Transport) (g : GuardState) :
    publishRequests (mqtt_client_publish (some tp) (some pl) t g).2.2
      = [Event.publish_request (some tp) (some pl)] ∧
    ((g.mosq = none ∨ g.mqtt_connected = false) →
      transportCalls (mqtt_client_publish (some tp) (some pl) t g).2.2 = []) ∧
    (∀ m, g.mosq = some m → g.mqtt_connected = true →
      transportCalls (mqtt_client_publish (some tp) (some pl) t g).2.2
        = [Event.mosquitto_publish m tp (strlen pl) pl 0 false]) := by
  refine ⟨?_, ?_, ?_⟩
  · cases hm : g.mosq <;> cases hc : g.mqtt_connected <;>
    by_cases hrc : t.publish_rc = MOSQ_ERR_SUCCESS <;>
    simp [mqtt_client_publish, mqtt_do_publish, hm, hc, hrc, publishRequests,
      Event.isPublishRequest]
  · intro h
    simp [mqtt_client_publish, do_publish_not_connected tp pl (strlen pl) 0 false t g h,
      transportCalls, Event.isTransportCall]
  · intro m hm hc
    by_cases hrc : t.publish_rc = MOSQ_ERR_SUCCESS <;>
    simp [mqtt_client_publish, mqtt_do_publish, hm, hc, hrc, transportCalls,
      Event.isTransportCall]

theorem publishRequests_append (a b : List Event) :
    publishRequests (a ++ b) = publishRequests a ++ publishRequests b := by
  simp [publishRequests]

theorem transportCalls_append (a b : List Event) :
    transportCalls (a ++ b) = transportCalls a ++ transportCalls b := by
  simp [transportCalls]

/-- The events of a class-1 call that does not find the id: the lock, perhaps
the warning, those of the publish of the new total, and the unlock. -/
theorem process_obj_absent (cap : Nat) (id : Nat) (t : Transport) (w : World)
    (h0 : 0 ≤ w.cm.seen_count) (hle : w.cm.seen_count ≤ (cap : Int)) (hin : id ∉ w.cm.stored) :
    ∃ w1 warn,
      count_manager_process_obj cap 1 id t w
        = some (w1, [Event.lock Lock.cm_lock] ++ warn
            ++ (mqtt_client_publish (some "deepstream/count")
                  (some (snprintf_llu 64 ((w.cm.total_count + 1) % 2 ^ 64))) t w.mq).2.2
            ++ [Event.unlock Lock.cm_lock]) ∧
      w1.cm.total_count = (w.cm.total_count + 1) % 2 ^ 64 ∧
      w1.mq = (mqtt_client_publish (some "deepstream/count")
                  (some (snprintf_llu 64 ((w.cm.total_count + 1) % 2 ^ 64))) t w.mq).2.1 ∧
      (warn = [] ∨ warn = [Event.overflow_warning]) := by
  by_cases hlt : w.cm.seen_count < (cap : Int)
  · refine ⟨{ cm := w.cm.inserted id,
               mq := (mqtt_client_publish (some "deepstream/count")
                  (some (snprintf_llu 64 ((w.cm.total_count + 1) % 2 ^ 64))) t w.mq).2.1 },
             [], ?_, rfl, rfl, Or.inl rfl⟩
    rw [process_obj_insert cap id t w h0 hlt hin]
    simp
  · have hfull : w.cm.seen_count = (cap : Int) := le_antisymm hle (not_lt.mp hlt)
    refine ⟨{ cm := w.cm.rejected,
               mq := (mqtt_client_publish (some "deepstream/count")
                  (some (snprintf_llu 64 ((w.cm.total_count + 1) % 2 ^ 64))) t w.mq).2.1 },
             _, process_obj_reject cap id t w hfull hin, rfl, rfl, ?_⟩
    cases w.cm.overflow_warned <;> simp


/-! ## The counter: sessions -/

/-- A call in a state whose fill level is within the array returns, and the
fill level stays within the array. -/
theorem process_obj_returns (cap : Nat) (class_id : Int) (id : Nat) (t : Transport) (w : World)
    (h0 : 0 ≤ w.cm.seen_count) (hle : w.cm.seen_count ≤ (cap : Int)) :
    ∃ w1 ev, count_manager_process_obj cap class_id id t w = some (w1, ev) ∧
      0 ≤ w1.cm.seen_count ∧ w1.cm.seen_count ≤ (cap : Int) := by
  by_cases hc : class_id = 1
  · subst hc
    by_cases hin : id ∈ w.cm.stored
    · exact ⟨w, _, process_obj_present cap id t w hle hin, h0, hle⟩
    · by_cases hlt : w.cm.seen_count < (cap : Int)
      · refine ⟨_, _, process_obj_insert cap id t w h0 hlt hin, ?_, ?_⟩ <;>
          simp only [CounterState.inserted] <;> omega
      · have hfull : w.cm.seen_count = (cap : Int) := le_antisymm hle (not_lt.mp hlt)
        exact ⟨_, _, process_obj_reject cap id t w hfull hin, h0, hle⟩
  · exact ⟨w, [], process_obj_other cap class_id id t w hc, h0, hle⟩

/-- What a returning call does to the total, in any state. -/
theorem process_obj_total (cap : Nat) (class_id : Int) (id : Nat) (t : Transport)
    (w w1 : World) (ev : List Event)
    (h : count_manager_process_obj cap class_id id t w = some (w1, ev)) :
    w1.cm.total_count = w.cm.total_count ∨
    w1.cm.total_count = (w.cm.total_count + 1) % 2 ^ 64 := by
  unfold count_manager_process_obj at h
  by_cases hc : class_id = 1
  · simp only [hc, ne_eq, not_true_eq_false, if_false] at h
    cases hs : has_seen_before_locked cap id w.cm with
    | none => simp [hs] at h
    | some b =>
      cases b with
      | true =>
        simp only [hs, Option.some.injEq, Prod.mk.injEq] at h
        left; rw [← h.1]
      | false =>
        simp only [hs] at h
        unfold mark_seen_locked at h
        right
        split_ifs at h <;>
          simp only [Option.some.injEq, Prod.mk.injEq, reduceCtorEq] at h <;>
          rw [← h.1]
  · simp only [hc, ne_eq, not_false_eq_true, if_true, Option.some.injEq, Prod.mk.injEq] at h
    left; rw [← h.1]

theorem counterInv_of_programReachable (cap : Nat) (hcap : cap ≤ 2 ^ 64) (s : CounterState)
    (hr : ProgramReachable cap s) : CounterInv cap s := by
  induction hr with
  | initial => exact counterInv_init cap CounterState.initial
  | init s _ _ => exact counterInv_init cap s
  | process_obj class_id id t w w1 ev _ hstep ih =>
    rcases process_obj_cases cap class_id id t w w1 ev ih hstep with h | h | h
    · rw [h]; exact ih
    · rw [h.2.2.2]; exact counterInv_inserted cap hcap id w.cm ih h.2.2.1 h.2.1
    · rw [h.2.2.2]; exact counterInv_rejected cap w.cm ih h.2.2.1


/-- Two states with the same view are taken to states with the same view by
the same call, which returns in both, with the same events and the same guard
state. -/
theorem process_obj_same_view (cap : Nat) (class_id : Int) (id : Nat) (t : Transport)
    (s1 s2 : CounterState) (g : GuardState) (hv : s1.same_view s2)
    (h0 : 0 ≤ s1.seen_count) (hle : s1.seen_count ≤ (cap : Int)) :
    ∃ w1 w2 ev,
      count_manager_process_obj cap class_id id t { cm := s1, mq := g } = some (w1, ev) ∧
      count_manager_process_obj cap class_id id t { cm := s2, mq := g } = some (w2, ev) ∧
      w1.mq = w2.mq ∧ w1.cm.same_view w2.cm ∧
      0 ≤ w1.cm.seen_count ∧ w1.cm.seen_count ≤ (cap : Int) := by
  obtain ⟨htot, hcnt, hwarn, hst⟩ := hv
  have h0' : 0 ≤ s2.seen_count := hcnt ▸ h0
  have hle' : s2.seen_count ≤ (cap : Int) := hcnt ▸ hle
  by_cases hc : class_id = 1
  · subst hc
    by_cases hin : id ∈ s1.stored
    · have hin' : id ∈ s2.stored := hst ▸ hin
      exact ⟨_, _, _, process_obj_present cap id t { cm := s1, mq := g } hle hin,
        process_obj_present cap id t { cm := s2, mq := g } hle' hin', rfl,
        ⟨htot, hcnt, hwarn, hst⟩, h0, hle⟩
    · have hin' : id ∉ s2.stored := hst ▸ hin
      by_cases hlt : s1.seen_count < (cap : Int)
      · have hlt' : s2.seen_count < (cap : Int) := hcnt ▸ hlt
        have e1 := process_obj_insert cap id t { cm := s1, mq := g } h0 hlt hin
        have e2 := process_obj_insert cap id t { cm := s2, mq := g } h0' hlt' hin'
        simp only [] at e1 e2
        rw [← htot] at e2
        refine ⟨_, _, _, e1, e2, rfl, ⟨?_, ?_, hwarn, ?_⟩, ?_, ?_⟩
        · simp only [CounterState.inserted, htot]
        · simp only [CounterState.inserted, hcnt]
        · rw [stored_inserted id s1 h0, stored_inserted id s2 h0', hst]
        · simp only [CounterState.inserted]; omega
        · simp only [CounterState.inserted]; omega
      · have hfull : s1.seen_count = (cap : Int) := le_antisymm hle (not_lt.mp hlt)
        have hfull' : s2.seen_count = (cap : Int) := hcnt ▸ hfull
        have e1 := process_obj_reject cap id t { cm := s1, mq := g } hfull hin
        have e2 := process_obj_reject cap id t { cm := s2, mq := g } hfull' hin'
        simp only [] at e1 e2
        rw [← htot, ← hwarn] at e2
        refine ⟨_, _, _, e1, e2, rfl, ⟨?_, hcnt, rfl, ?_⟩, h0, hle⟩
        · simp only [CounterState.rejected, htot]
        · simp only [CounterState.stored, CounterState.rejected] at hst ⊢
          exact hst
  · exact ⟨_, _, _, process_obj_other cap class_id id t { cm := s1, mq := g } hc,
      process_obj_other cap class_id id t { cm := s2, mq := g } hc, rfl,
      ⟨htot, hcnt, hwarn, hst⟩, h0, hle⟩

/-- Runs of the same calls from two states with the same view return the same
values and events. -/
theorem counter_run_same_view (cap : Nat) (ops : List CounterOp) :
    ∀ (s1 s2 : CounterState) (g : GuardState), s1.same_view s2 →
      0 ≤ s1.seen_count → s1.seen_count ≤ (cap : Int) →
      ∃ w1 w2 out,
        counter_run cap ops { cm := s1, mq := g } = some (w1, out) ∧
        counter_run cap ops { cm := s2, mq := g } = some (w2, out) ∧
        w1.mq = w2.mq ∧ w1.cm.same_view w2.cm := by
  induction ops with
  | nil => intro s1 s2 g hv _ _; exact ⟨_, _, [], rfl, rfl, rfl, hv⟩
  | cons op rest ih =>
    intro s1 s2 g hv h0 hle
    cases op with
    | process_obj c =>
      obtain ⟨w1, w2, ev, e1, e2, hmq, hv1, hb0, hb1⟩ :=
        process_obj_same_view cap c.class_id c.object_id c.transport s1 s2 g hv h0 hle
      obtain ⟨w3, w4, out, r1, r2, hmq2, hv2⟩ := ih w1.cm w2.cm w1.mq hv1 hb0 hb1
      have r2' : counter_run cap rest w2 = some (w4, out) := by
        have : w2 = { cm := w2.cm, mq := w1.mq } := by rw [hmq]
        rw [this]; exact r2
      refine ⟨w3, w4, (none, ev) :: out, ?_, ?_, hmq2, hv2⟩
      · simp only [counter_run, e1]
        have : w1 = { cm := w1.cm, mq := w1.mq } := rfl
        rw [this, r1]
      · simp only [counter_run, e2, r2']
    | get_total =>
      obtain ⟨w3, w4, out, r1, r2, hmq2, hv2⟩ := ih s1 s2 g hv h0 hle
      refine ⟨w3, w4,
        (some s1.total_count, [Event.lock Lock.cm_lock, Event.unlock Lock.cm_lock]) :: out,
        ?_, ?_, hmq2, hv2⟩
      · simp only [counter_run, r1, count_manager_get_total]
      · simp only [counter_run, r2, count_manager_get_total, hv.1]


theorem client_publish_no_warning (tp pl : Option String) (t : Transport) (g : GuardState) :
    (mqtt_client_publish tp pl t g).2.2.count Event.overflow_warning = 0 := by
  cases tp <;> cases pl <;> cases hm : g.mosq <;> cases hc : g.mqtt_connected <;>
  by_cases hrc : t.publish_rc = MOSQ_ERR_SUCCESS <;>
  simp [mqtt_client_publish, mqtt_do_publish, hm, hc, hrc]

/-- One call in a state whose fill level is within the array: it returns, it
writes the warning once if it is an overflowing call and the flag is clear and
not at all otherwise, and the flag is set afterwards if it was set before or
the call was overflowing. -/
theorem process_obj_warning (cap : Nat) (c : ObjCall) (w : World)
    (h0 : 0 ≤ w.cm.seen_count) (hle : w.cm.seen_count ≤ (cap : Int)) :
    ∃ w1 ev, count_manager_process_obj cap c.class_id c.object_id c.transport w = some (w1, ev) ∧
      0 ≤ w1.cm.seen_count ∧ w1.cm.seen_count ≤ (cap : Int) ∧
      ev.count Event.overflow_warning
        = (if is_overflowing cap c w.cm = true ∧ w.cm.overflow_warned = false then 1 else 0) ∧
      w1.cm.overflow_warned = (w.cm.overflow_warned || is_overflowing cap c w.cm) := by
  by_cases hc : c.class_id = 1
  · rw [hc]
    by_cases hin : c.object_id ∈ w.cm.stored
    · have e := process_obj_present cap c.object_id c.transport w hle hin
      refine ⟨_, _, e, h0, hle, ?_, ?_⟩
      · simp [is_overflowing, hin]
      · simp [is_overflowing, hin]
    · by_cases hlt : w.cm.seen_count < (cap : Int)
      · have hne : w.cm.seen_count ≠ (cap : Int) := ne_of_lt hlt
        have e := process_obj_insert cap c.object_id c.transport w h0 hlt hin
        refine ⟨_, _, e, ?_, ?_, ?_, ?_⟩
        · simp only [CounterState.inserted]; omega
        · simp only [CounterState.inserted]; omega
        · simp [is_overflowing, hne, client_publish_no_warning]
        · simp [is_overflowing, hne, CounterState.inserted]
      · have hfull : w.cm.seen_count = (cap : Int) := le_antisymm hle (not_lt.mp hlt)
        have e := process_obj_reject cap c.object_id c.transport w hfull hin
        refine ⟨_, _, e, h0, hle, ?_, ?_⟩
        · cases hw : w.cm.overflow_warned <;>
            simp [is_overflowing, hc, hin, hfull, client_publish_no_warning]
        · simp [is_overflowing, hc, hin, hfull, CounterState.rejected]
  · have e := process_obj_other cap c.class_id c.object_id c.transport w hc
    refine ⟨_, _, e, h0, hle, ?_, ?_⟩
    · simp [is_overflowing, hc]
    · simp [is_overflowing, hc]

/-- Once the flag is set, no call of the session writes the warning. -/
theorem process_all_warned (cap : Nat) (calls : List ObjCall) :
    ∀ (w : World), 0 ≤ w.cm.seen_count → w.cm.seen_count ≤ (cap : Int) →
      w.cm.overflow_warned = true →
      ∃ w1 evs, process_all cap calls w = some (w1, evs) ∧
        warning_counts evs = calls.map fun _ => 0 := by
  induction calls with
  | nil => intro w _ _ _; exact ⟨w, [], rfl, rfl⟩
  | cons c rest ih =>
    intro w h0 hle hw
    obtain ⟨w1, ev, hrun, hb0, hb1, hcount, hflag⟩ := process_obj_warning cap c w h0 hle
    have hw1 : w1.cm.overflow_warned = true := by rw [hflag, hw]; rfl
    obtain ⟨w2, evs, hrest, hcounts⟩ := ih w1 hb0 hb1 hw1
    refine ⟨w2, ev :: evs, by simp only [process_all, hrun, hrest], ?_⟩
    simp only [warning_counts, List.map_cons] at hcounts ⊢
    rw [hcounts, hcount]
    simp [hw]

/-- While the flag is clear, the calls that write the warning are: the first
overflowing call, and no other. -/
theorem process_all_warnings (cap : Nat) (calls : List ObjCall) :
    ∀ (w : World), 0 ≤ w.cm.seen_count → w.cm.seen_count ≤ (cap : Int) →
      w.cm.overflow_warned = false →
      ∃ w1 evs, process_all cap calls w = some (w1, evs) ∧
        warning_counts evs
          = (first_true_only (overflowing_calls cap calls w)).map
              fun b => if b = true then 1 else 0 := by
  induction calls with
  | nil => intro w _ _ _; exact ⟨w, [], rfl, rfl⟩
  | cons c rest ih =>
    intro w h0 hle hw
    obtain ⟨w1, ev, hrun, hb0, hb1, hcount, hflag⟩ := process_obj_warning cap c w h0 hle
    by_cases hov : is_overflowing cap c w.cm = true
    · have hw1 : w1.cm.overflow_warned = true := by rw [hflag, hov]; simp
      obtain ⟨w2, evs, hrest, hcounts⟩ := process_all_warned cap rest w1 hb0 hb1 hw1
      refine ⟨w2, ev :: evs, by simp only [process_all, hrun, hrest], ?_⟩
      simp only [warning_counts, List.map_cons] at hcounts ⊢
      rw [hcounts, hcount]
      have hlen : (overflowing_calls cap rest w1).length = rest.length := by
        clear hrest hcounts ih hw1 hflag hcount hrun
        induction rest generalizing w1 with
        | nil => rfl
        | cons d more ihm =>
          obtain ⟨w3, ev3, hrun3, hc0, hc1, _, _⟩ := process_obj_warning cap d w1 hb0 hb1
          simp only [overflowing_calls, hrun3, List.length_cons, ihm w3 hc0 hc1]
      simp only [overflowing_calls, hrun, hov, first_true_only, List.map_cons, List.map_map,
        hw, and_self, if_true]
      congr 1
      apply List.ext_getElem
      · simp [hlen]
      · intro i h1 h2
        simp
    · have hov' : is_overflowing cap c w.cm = false := by simpa using hov
      have hw1 : w1.cm.overflow_warned = false := by rw [hflag, hw, hov']; rfl
      obtain ⟨w2, evs, hrest, hcounts⟩ := ih w1 hb0 hb1 hw1
      refine ⟨w2, ev :: evs, by simp only [process_all, hrun, hrest], ?_⟩
      simp only [warning_counts, List.map_cons] at hcounts ⊢
      rw [hcounts, hcount]
      simp [overflowing_calls, hrun, hov', first_true_only]

theorem first_true_only_sum (l : List Bool) :
    ((first_true_only l).map fun b => if b = true then 1 else 0).sum ≤ 1 := by
  induction l with
  | nil => simp [first_true_only]
  | cons b rest ih =>
    cases b with
    | true => simp [first_true_only]
    | false => simpa [first_true_only] using ih


/-! ## Locks -/

theorem acquired_under_append (a b : List Event) :
    ∀ held, acquired_under held (a ++ b)
      = acquired_under held a ++ acquired_under (held_after held a) b := by
  induction a with
  | nil => intro held; simp [acquired_under, held_after]
  | cons e rest ih =>
    intro held
    cases e <;> simp [acquired_under, held_after, ih]

theorem held_after_append (a b : List Event) :
    ∀ held, held_after held (a ++ b) = held_after (held_after held a) b := by
  induction a with
  | nil => intro held; simp [held_after]
  | cons e rest ih =>
    intro held
    cases e <;> simp [held_after, ih]

/-- The publish that `count_manager_process_obj` requests, made with `cm_lock`
held: `mqtt_lock` is taken under it and released again. -/
theorem client_publish_locks (tp pl : String) (t : Transport) (g : GuardState) :
    acquired_under [Lock.cm_lock] (mqtt_client_publish (some tp) (some pl) t g).2.2
      = [(Lock.cm_lock, Lock.mqtt_lock)] ∧
    held_after [Lock.cm_lock] (mqtt_client_publish (some tp) (some pl) t g).2.2
      = [Lock.cm_lock] := by
  cases hm : g.mosq <;> cases hc : g.mqtt_connected <;>
  by_cases hrc : t.publish_rc = MOSQ_ERR_SUCCESS <;>
  simp [mqtt_client_publish, mqtt_do_publish, hm, hc, hrc, acquired_under, held_after]

/-- No operation of the publish guard holds two locks, and each has released
`mqtt_lock` when it returns. -/
theorem guard_step_locks (op : GuardOp) (g : GuardState) :
    acquired_under [] (guard_step op g).2.2 = [] ∧ held_after [] (guard_step op g).2.2 = [] := by
  cases op with
  | init host port t =>
    cases host with
    | none => simp [guard_step, mqtt_client_init, acquired_under, held_after]
    | some hs =>
      by_cases hp : port ≤ 0
      · simp [guard_step, mqtt_client_init, hp, acquired_under, held_after]
      · cases hn : t.new_result <;>
        by_cases hl : t.loop_start_rc = MOSQ_ERR_SUCCESS <;>
        by_cases hc : t.connect_async_rc = MOSQ_ERR_SUCCESS <;>
        simp [guard_step, mqtt_client_init, hp, hn, hl, hc, acquired_under, held_after]
  | publish topic payload t =>
    cases topic <;> cases payload <;> cases hm : g.mosq <;> cases hc : g.mqtt_connected <;>
    by_cases hrc : t.publish_rc = MOSQ_ERR_SUCCESS <;>
    simp [guard_step, mqtt_client_publish, mqtt_do_publish, hm, hc, hrc, acquired_under,
      held_after]
  | publish_uint64 topic value t =>
    cases topic <;> cases hm : g.mosq <;> cases hc : g.mqtt_connected <;>
    by_cases hrc : t.publish_rc = MOSQ_ERR_SUCCESS <;>
    simp [guard_step, mqtt_client_publish_uint64, mqtt_do_publish, hm, hc, hrc, acquired_under,
      held_after]
  | connect_notification rc => simp [guard_step, on_connect, acquired_under, held_after]
  | disconnect_notification rc => simp [guard_step, on_disconnect, acquired_under, held_after]
  | deinit =>
    cases hm : g.mosq <;> simp [guard_step, mqtt_client_deinit, hm, acquired_under, held_after]

/-- The events of a returning call of `count_manager_process_obj`: none, or
the lock and unlock of `cm_lock` around nothing, or around an optional warning
and the publish of the new total. -/
theorem process_obj_events (cap : Nat) (class_id : Int) (id : Nat) (t : Transport)
    (w w1 : World) (ev : List Event)
    (h : count_manager_process_obj cap class_id id t w = some (w1, ev)) :
    ev = [] ∨ ev = [Event.lock Lock.cm_lock, Event.unlock Lock.cm_lock] ∨
    ∃ warn, (warn = [] ∨ warn = [Event.overflow_warning]) ∧
      ev = [Event.lock Lock.cm_lock] ++ warn
          ++ (mqtt_client_publish (some "deepstream/count")
                (some (snprintf_llu 64 ((w.cm.total_count + 1) % 2 ^ 64))) t w.mq).2.2
          ++ [Event.unlock Lock.cm_lock] := by
  unfold count_manager_process_obj at h
  by_cases hc : class_id = 1
  · simp only [hc, ne_eq, not_true_eq_false, if_false] at h
    cases hs : has_seen_before_locked cap id w.cm with
    | none => simp [hs] at h
    | some b =>
      cases b with
      | true =>
        simp only [hs, Option.some.injEq, Prod.mk.injEq] at h
        right; left; exact h.2.symm
      | false =>
        simp only [hs] at h
        unfold mark_seen_locked at h
        right; right
        split_ifs at h <;>
          simp only [Option.some.injEq, Prod.mk.injEq, reduceCtorEq] at h
        · exact ⟨[], Or.inl rfl, by rw [← h.2]⟩
        · exact ⟨[Event.overflow_warning], Or.inr rfl, by rw [← h.2]⟩
        · exact ⟨[], Or.inl rfl, by rw [← h.2]⟩
  · simp only [hc, ne_eq, not_false_eq_true, if_true, Option.some.injEq, Prod.mk.injEq] at h
    left; exact h.2.symm


/-- The locks of a run of the shape `count_manager_process_obj` produces when
it publishes, given what the publish part does under `cm_lock`. -/
theorem locks_of_publishing_call (warn pub : List Event)
    (hwarn : warn = [] ∨ warn = [Event.overflow_warning])
    (hacq : acquired_under [Lock.cm_lock] pub = [(Lock.cm_lock, Lock.mqtt_lock)])
    (hheld : held_after [Lock.cm_lock] pub = [Lock.cm_lock]) :
    acquired_under [] ([Event.lock Lock.cm_lock] ++ warn ++ pub ++ [Event.unlock Lock.cm_lock])
      = [(Lock.cm_lock, Lock.mqtt_lock)] ∧
    held_after [] ([Event.lock Lock.cm_lock] ++ warn ++ pub ++ [Event.unlock Lock.cm_lock])
      = [] := by
  rcases hwarn with hw | hw <;> subst hw <;>
    simp [acquired_under_append, held_after_append, acquired_under, held_after, hacq, hheld]


theorem sync_events_append (a b : List Event) :
    sync_events (a ++ b) = sync_events a ++ sync_events b := by
  simp [sync_events]

theorem lock_events_append (a b : List Event) :
    lock_events (a ++ b) = lock_events a ++ lock_events b := by
  simp [lock_events]

/-- The publish that `count_manager_process_obj` requests: the call, then
`mqtt_lock` taken and released, in that order. -/
theorem client_publish_sync (tp pl : String) (t : Transport) (g : GuardState) :
    sync_events (mqtt_client_publish (some tp) (some pl) t g).2.2
      = [Event.publish_request (some tp) (some pl), Event.lock Lock.mqtt_lock,
          Event.unlock Lock.mqtt_lock] ∧
    lock_events (mqtt_client_publish (some tp) (some pl) t g).2.2
      = [Event.lock Lock.mqtt_lock, Event.unlock Lock.mqtt_lock] := by
  cases hm : g.mosq <;> cases hc : g.mqtt_connected <;>
  by_cases hrc : t.publish_rc = MOSQ_ERR_SUCCESS <;>
  simp [mqtt_client_publish, mqtt_do_publish, hm, hc, hrc, sync_events, lock_events,
    Event.isLockEvent, Event.isPublishRequest]

/-- The lock events and publish requests of a run of the shape
`count_manager_process_obj` produces when it publishes. -/
theorem sync_of_publishing_call (warn pub : List Event)
    (hwarn : warn = [] ∨ warn = [Event.overflow_warning]) :
    sync_events ([Event.lock Lock.cm_lock] ++ warn ++ pub ++ [Event.unlock Lock.cm_lock])
      = Event.lock Lock.cm_lock :: (sync_events pub ++ [Event.unlock Lock.cm_lock]) ∧
    lock_events ([Event.lock Lock.cm_lock] ++ warn ++ pub ++ [Event.unlock Lock.cm_lock])
      = Event.lock Lock.cm_lock :: (lock_events pub ++ [Event.unlock Lock.cm_lock]) := by
  rcases hwarn with hw | hw <;> subst hw <;>
    simp [sync_events, lock_events, Event.isLockEvent, Event.isPublishRequest]

/-- No operation of the publish guard takes or releases `cm_lock`. -/
theorem guard_step_no_cm_lock (op : GuardOp) (g : GuardState) :
    ∀ e ∈ lock_events (guard_step op g).2.2,
      e = Event.lock Lock.mqtt_lock ∨ e = Event.unlock Lock.mqtt_lock := by
  cases op with
  | init host port t =>
    cases host with
    | none => simp [guard_step, mqtt_client_init, lock_events]
    | some hs =>
      by_cases hp : port ≤ 0
      · simp [guard_step, mqtt_client_init, hp, lock_events]
      · cases hn : t.new_result <;>
        by_cases hl : t.loop_start_rc = MOSQ_ERR_SUCCESS <;>
        by_cases hc : t.connect_async_rc = MOSQ_ERR_SUCCESS <;>
        simp [guard_step, mqtt_client_init, hp, hn, hl, hc, lock_events, Event.isLockEvent]
  | publish topic payload t =>
    cases topic <;> cases payload <;> cases hm : g.mosq <;> cases hc : g.mqtt_connected <;>
    by_cases hrc : t.publish_rc = MOSQ_ERR_SUCCESS <;>
    simp [guard_step, mqtt_client_publish, mqtt_do_publish, hm, hc, hrc, lock_events,
      Event.isLockEvent]
  | publish_uint64 topic value t =>
    cases topic <;> cases hm : g.mosq <;> cases hc : g.mqtt_connected <;>
    by_cases hrc : t.publish_rc = MOSQ_ERR_SUCCESS <;>
    simp [guard_step, mqtt_client_publish_uint64, mqtt_do_publish, hm, hc, hrc, lock_events,
      Event.isLockEvent]
  | connect_notification rc => simp [guard_step, on_connect, lock_events, Event.isLockEvent]
  | disconnect_notification rc =>
    simp [guard_step, on_disconnect, lock_events, Event.isLockEvent]
  | deinit =>
    cases hm : g.mosq <;>
    simp [guard_step, mqtt_client_deinit, hm, lock_events, Event.isLockEvent]


/-! ## Claims about the deduplication counter -/

/-- C1: from the state left by `count_manager_init`, after any sequence of
`count_manager_process_obj(1, id)` calls whose ids take fewer than
`MAX_TRACKED` distinct values, every call returns and
`count_manager_get_total` returns the number of distinct ids of the sequence. -/
theorem total_after_tracked_calls (s0 : CounterState) (g0 : GuardState) (calls : List ObjCall)
    (hcls : ∀ c ∈ calls, c.class_id = 1)
    (hfew : (ids_of calls).dedup.length < MAX_TRACKED) :
    ∃ w evs,
      process_all MAX_TRACKED calls { cm := (count_manager_init s0).1, mq := g0 } = some (w, evs) ∧
      (count_manager_get_total w.cm).1 = (ids_of calls).dedup.length := by
  have hcap : MAX_TRACKED ≤ 2 ^ 64 := by decide
  have hst0 : (count_manager_init s0).1.stored = [] := by
    simp [count_manager_init, CounterState.stored]
  obtain ⟨w, evs, hrun, hinv, hset⟩ :=
    process_all_tracked MAX_TRACKED hcap calls { cm := (count_manager_init s0).1, mq := g0 } hcls
      (counterInv_init MAX_TRACKED s0)
      (by simp only [hst0, List.nil_append, List.card_toFinset]; exact hfew)
  refine ⟨w, evs, hrun, ?_⟩
  simp only [hst0, List.nil_append] at hset
  have hlen : w.cm.seen_count.toNat = (ids_of calls).dedup.length := by
    rw [← stored_length, ← List.toFinset_card_of_nodup hinv.nodup, hset, List.card_toFinset]
  have h0 := hinv.nonneg
  have hlt : w.cm.seen_count < (MAX_TRACKED : Int) := by omega
  simp only [count_manager_get_total]
  rw [hinv.total_eq hlt, hlen]

/-- Witness for C1: the ids 5, 7, 5 (two distinct values) observed from the
state left by `count_manager_init`. -/
theorem total_after_tracked_calls_witness :
    (∀ c ∈ observations ⟨none, 0, 0, 0⟩ [5, 7, 5], c.class_id = 1) ∧
    (ids_of (observations ⟨none, 0, 0, 0⟩ [5, 7, 5])).dedup.length < MAX_TRACKED ∧
    ∃ w evs,
      process_all MAX_TRACKED (observations ⟨none, 0, 0, 0⟩ [5, 7, 5])
        { cm := (count_manager_init CounterState.initial).1, mq := GuardState.initial }
          = some (w, evs) ∧
      (count_manager_get_total w.cm).1
        = (ids_of (observations ⟨none, 0, 0, 0⟩ [5, 7, 5])).dedup.length :=
  ⟨by decide, by decide,
    total_after_tracked_calls CounterState.initial GuardState.initial
      (observations ⟨none, 0, 0, 0⟩ [5, 7, 5]) (by decide) (by decide)⟩

/-- C2: in a counter state reachable from `count_manager_init` whose array is
not full, `k >= 1` calls `count_manager_process_obj(1, id)` in a row end in
exactly the state the first of them leaves; the total has then risen by 1 if
`id` was not stored before and by 0 if it was; the second and later calls
request no publish and make no library call. -/
theorem repeated_observation_idempotent (s : CounterState)
    (hr : CounterReachable MAX_TRACKED s) (hroom : s.seen_count < (MAX_TRACKED : Int))
    (g : GuardState) (id : Nat) (t : Nat → Transport) (k : Nat) (hk : 1 ≤ k) :
    ∃ w1 ev1 evs,
      count_manager_process_obj MAX_TRACKED 1 id (t 0) { cm := s, mq := g } = some (w1, ev1) ∧
      process_all MAX_TRACKED (repeated id t k) { cm := s, mq := g } = some (w1, ev1 :: evs) ∧
      evs.length = k - 1 ∧
      (id ∉ s.stored → w1.cm.total_count = s.total_count + 1) ∧
      (id ∈ s.stored → w1.cm.total_count = s.total_count) ∧
      ∀ e ∈ evs, publishRequests e = [] ∧ transportCalls e = [] := by
  have hcap : MAX_TRACKED ≤ 2 ^ 64 := by decide
  have hinv := counterInv_of_reachable MAX_TRACKED hcap s hr
  obtain ⟨j, rfl⟩ : ∃ j, k = j + 1 := ⟨k - 1, by omega⟩
  have hsplit : repeated id t (j + 1)
      = { class_id := 1, object_id := id, transport := t 0 }
          :: repeated id (fun i => t (i + 1)) j := by
    simp [repeated, List.range_succ_eq_map, List.map_map, Function.comp_def]
  have hev : ∀ e ∈ List.replicate j [Event.lock Lock.cm_lock, Event.unlock Lock.cm_lock],
      publishRequests e = [] ∧ transportCalls e = [] := by
    intro e he
    rw [List.eq_of_mem_replicate he]
    exact ⟨rfl, rfl⟩
  by_cases hin : id ∈ s.stored
  · have h1 := process_obj_present MAX_TRACKED id (t 0) { cm := s, mq := g } hinv.le_cap hin
    refine ⟨_, _, _, h1, ?_, ?_, fun h => absurd hin h, fun _ => rfl, hev⟩
    · rw [hsplit]
      simp only [process_all, h1,
        process_all_present MAX_TRACKED id (fun i => t (i + 1)) { cm := s, mq := g }
          hinv.le_cap hin j]
    · simp
  · obtain ⟨g1, ev1, h1⟩ : ∃ g1 ev1,
        count_manager_process_obj MAX_TRACKED 1 id (t 0) { cm := s, mq := g }
          = some ({ cm := s.inserted id, mq := g1 }, ev1) :=
      ⟨_, _, process_obj_insert MAX_TRACKED id (t 0) { cm := s, mq := g } hinv.nonneg hroom hin⟩
    have hinv1 := counterInv_inserted MAX_TRACKED hcap id s hinv hroom hin
    have hin1 : id ∈ (s.inserted id).stored := by
      rw [stored_inserted id s hinv.nonneg]; simp
    refine ⟨_, _, _, h1, ?_, ?_, fun _ => ?_, fun h => absurd h hin, hev⟩
    · rw [hsplit]
      simp only [process_all, h1,
        process_all_present MAX_TRACKED id (fun i => t (i + 1))
          { cm := s.inserted id, mq := g1 } hinv1.le_cap hin1 j]
    · simp
    · have ht := hinv.total_eq hroom
      have h0 := hinv.nonneg
      have hm : MAX_TRACKED = 10000 := rfl
      simp only [CounterState.inserted]
      rw [Nat.mod_eq_of_lt (by omega)]

/-- Witness for C2: three observations of id 5 in the state left by
`count_manager_init`. -/
theorem repeated_observation_idempotent_witness :
    CounterReachable MAX_TRACKED (count_manager_init CounterState.initial).1 ∧
    (count_manager_init CounterState.initial).1.seen_count < (MAX_TRACKED : Int) ∧
    1 ≤ 3 ∧
    ∃ w1 ev1 evs,
      count_manager_process_obj MAX_TRACKED 1 5 ⟨none, 0, 0, 0⟩
        { cm := (count_manager_init CounterState.initial).1, mq := GuardState.initial }
          = some (w1, ev1) ∧
      process_all MAX_TRACKED (repeated 5 (fun _ => ⟨none, 0, 0, 0⟩) 3)
        { cm := (count_manager_init CounterState.initial).1, mq := GuardState.initial }
          = some (w1, ev1 :: evs) ∧
      evs.length = 3 - 1 ∧
      (5 ∉ (count_manager_init CounterState.initial).1.stored →
        w1.cm.total_count = (count_manager_init CounterState.initial).1.total_count + 1) ∧
      (5 ∈ (count_manager_init CounterState.initial).1.stored →
        w1.cm.total_count = (count_manager_init CounterState.initial).1.total_count) ∧
      ∀ e ∈ evs, publishRequests e = [] ∧ transportCalls e = [] :=
  ⟨CounterReachable.init CounterState.initial, by decide, by decide,
    repeated_observation_idempotent (count_manager_init CounterState.initial).1
      (CounterReachable.init CounterState.initial) (by decide) GuardState.initial 5
      (fun _ => ⟨none, 0, 0, 0⟩) 3 (by decide)⟩

/-- C3: for every state, every `class_id` other than 1 and every `object_id`,
`count_manager_process_obj` returns with `total_count`, `seen_ids`,
`seen_count`, `overflow_warned` and the guard state unchanged, and produces no
event at all: no publish request, no library call. -/
theorem untracked_class_is_noop (cap : Nat) (class_id : Int) (object_id : Nat) (t : Transport)
    (w : World) (hc : class_id ≠ 1) :
    ∃ w1 ev,
      count_manager_process_obj cap class_id object_id t w = some (w1, ev) ∧
      w1.cm.total_count = w.cm.total_count ∧ w1.cm.seen_ids = w.cm.seen_ids ∧
      w1.cm.seen_count = w.cm.seen_count ∧ w1.cm.overflow_warned = w.cm.overflow_warned ∧
      w1.mq = w.mq ∧ ev = [] ∧ publishRequests ev = [] ∧ transportCalls ev = [] :=
  ⟨w, [], process_obj_other cap class_id object_id t w hc, rfl, rfl, rfl, rfl, rfl, rfl, rfl, rfl⟩

/-- Witness for C3: class 2 observed in the initial state with a connected
guard. -/
theorem untracked_class_is_noop_witness :
    (2 : Int) ≠ 1 ∧
    ∃ w1 ev,
      count_manager_process_obj MAX_TRACKED 2 9 ⟨none, 0, 0, 0⟩
        { cm := CounterState.initial, mq := ⟨some 1, true, "broker", 1883⟩ } = some (w1, ev) ∧
      w1.cm.total_count = CounterState.initial.total_count ∧
      w1.cm.seen_ids = CounterState.initial.seen_ids ∧
      w1.cm.seen_count = CounterState.initial.seen_count ∧
      w1.cm.overflow_warned = CounterState.initial.overflow_warned ∧
      w1.mq = ⟨some 1, true, "broker", 1883⟩ ∧ ev = [] ∧ publishRequests ev = [] ∧
      transportCalls ev = [] :=
  ⟨by decide,
    untracked_class_is_noop MAX_TRACKED 2 9 ⟨none, 0, 0, 0⟩
      { cm := CounterState.initial, mq := ⟨some 1, true, "broker", 1883⟩ } (by decide)⟩

/-- C4, refuted as stated: on a full two-cell counter whose total is
`2 ^ 64 - 1`, observing the unstored id 30 takes the total to 0, not to one
more, and two such observations take it to 1; the same happens with all
`MAX_TRACKED` cells filled. -/
theorem overcount_wraps_counterexample :
    full_world_at_max.cm.seen_count = ((2 : Nat) : Int) ∧ 30 ∉ full_world_at_max.cm.stored ∧
    full_world_at_max.cm.total_count = 18446744073709551615 ∧
    (count_manager_process_obj 2 1 30 ⟨none, 0, 0, 0⟩ full_world_at_max).map
        (fun r => r.1.cm.total_count) = some 0 ∧
    ¬ (count_manager_process_obj 2 1 30 ⟨none, 0, 0, 0⟩ full_world_at_max).map
        (fun r => r.1.cm.total_count) = some (full_world_at_max.cm.total_count + 1) ∧
    (process_all 2 (repeated 30 (fun _ => ⟨none, 0, 0, 0⟩) 2) full_world_at_max).map
        (fun r => r.1.cm.total_count) = some 1 ∧
    (count_manager_process_obj MAX_TRACKED 1 10000 ⟨none, 0, 0, 0⟩
        { cm := saturated_at_max, mq := GuardState.initial }).map
          (fun r => r.1.cm.total_count) = some 0 := by
  have hin : 10000 ∉ saturated_at_max.stored := by
    simp [CounterState.stored, saturated_at_max, MAX_TRACKED]
  refine ⟨by decide, by decide, by decide, by decide, by decide, by decide, ?_⟩
  rw [process_obj_reject MAX_TRACKED 10000 ⟨none, 0, 0, 0⟩
    { cm := saturated_at_max, mq := GuardState.initial } rfl hin]
  decide

/-- C4, amended: when the array is full (`seen_count` equals the capacity) and
`id` is not among the stored ids, each call `count_manager_process_obj(1, id)`
increments the `uint64_t` total by one modulo `2 ^ 64` (by exactly 1 when the
total is below `2 ^ 64 - 1`) and leaves the stored ids unchanged; `k` such
calls add `k` modulo `2 ^ 64` (exactly `k` when the sum stays below `2 ^ 64`);
a stored id adds 0.  With capacity 2, the observations A, B, C, C, A from the
reset state give the totals 1, 2, 3, 4, 4. -/
theorem overcount_when_full (cap : Nat) (w : World) (id : Nat)
    (hfull : w.cm.seen_count = (cap : Int)) (hin : id ∉ w.cm.stored) :
    (∀ t, ∃ w1 ev, count_manager_process_obj cap 1 id t w = some (w1, ev) ∧
        w1.cm.total_count = (w.cm.total_count + 1) % 2 ^ 64 ∧
        (w.cm.total_count + 1 < 2 ^ 64 → w1.cm.total_count = w.cm.total_count + 1) ∧
        w1.cm.seen_ids = w.cm.seen_ids ∧ w1.cm.seen_count = w.cm.seen_count ∧
        w1.cm.stored = w.cm.stored) ∧
    (∀ (t : Nat → Transport) (k : Nat), 1 ≤ k →
      ∃ wk evs, process_all cap (repeated id t k) w = some (wk, evs) ∧
        wk.cm.total_count = (w.cm.total_count + k) % 2 ^ 64 ∧
        (w.cm.total_count + k < 2 ^ 64 → wk.cm.total_count = w.cm.total_count + k) ∧
        wk.cm.stored = w.cm.stored) ∧
    (∀ t id1, id1 ∈ w.cm.stored →
      ∃ w1 ev, count_manager_process_obj cap 1 id1 t w = some (w1, ev) ∧
        w1.cm.total_count = w.cm.total_count ∧ w1.cm.stored = w.cm.stored) ∧
    (∀ (s0 : CounterState) (g0 : GuardState) (t1 t2 t3 t4 t5 : Transport) (A B C : Nat),
      A ≠ B → A ≠ C → B ≠ C →
      totals_after 2
        [⟨1, A, t1⟩, ⟨1, B, t2⟩, ⟨1, C, t3⟩, ⟨1, C, t4⟩, ⟨1, A, t5⟩]
        { cm := (count_manager_init s0).1, mq := g0 } = some [1, 2, 3, 4, 4]) := by
  refine ⟨?_, ?_, ?_, ?_⟩
  · intro t
    refine ⟨_, _, process_obj_reject cap id t w hfull hin, rfl, ?_, rfl, rfl, rfl⟩
    intro h
    simp only [CounterState.rejected]
    exact Nat.mod_eq_of_lt h
  · intro t k hk
    obtain ⟨wk, evs, hrun, htot, hids, hcnt⟩ := process_all_rejected cap id t k w hfull hin
    have hk0 : k ≠ 0 := by omega
    simp only [hk0, if_false] at htot
    refine ⟨wk, evs, hrun, htot, ?_, ?_⟩
    · intro h
      rw [htot]
      exact Nat.mod_eq_of_lt h
    · simp only [CounterState.stored, hids, hcnt]
  · intro t id1 h1
    exact ⟨w, _, process_obj_present cap id1 t w (le_of_eq hfull) h1, rfl, rfl⟩
  · intro s0 g0 t1 t2 t3 t4 t5 A B C hAB hAC hBC
    have hBA := hAB.symm
    have hCA := hAC.symm
    have hCB := hBC.symm
    simp [totals_after, count_manager_process_obj, has_seen_before_locked,
      has_seen_loop, mark_seen_locked, count_manager_init, count_manager_get_total,
      hAB, hAC, hBC, hBA, hCA, hCB]

/-- Witness for the amended C4: id 30 observed in a full two-cell counter that stores 10
and 20. -/
theorem overcount_when_full_witness :
    full_world.cm.seen_count = ((2 : Nat) : Int) ∧ 30 ∉ full_world.cm.stored ∧
    (∀ t, ∃ w1 ev, count_manager_process_obj 2 1 30 t full_world = some (w1, ev) ∧
        w1.cm.total_count = (full_world.cm.total_count + 1) % 2 ^ 64 ∧
        (full_world.cm.total_count + 1 < 2 ^ 64 →
          w1.cm.total_count = full_world.cm.total_count + 1) ∧
        w1.cm.seen_ids = full_world.cm.seen_ids ∧ w1.cm.seen_count = full_world.cm.seen_count ∧
        w1.cm.stored = full_world.cm.stored) ∧
    (∀ (t : Nat → Transport) (k : Nat), 1 ≤ k →
      ∃ wk evs, process_all 2 (repeated 30 t k) full_world = some (wk, evs) ∧
        wk.cm.total_count = (full_world.cm.total_count + k) % 2 ^ 64 ∧
        (full_world.cm.total_count + k < 2 ^ 64 →
          wk.cm.total_count = full_world.cm.total_count + k) ∧
        wk.cm.stored = full_world.cm.stored) ∧
    (∀ t id1, id1 ∈ full_world.cm.stored →
      ∃ w1 ev, count_manager_process_obj 2 1 id1 t full_world = some (w1, ev) ∧
        w1.cm.total_count = full_world.cm.total_count ∧ w1.cm.stored = full_world.cm.stored) ∧
    (∀ (s0 : CounterState) (g0 : GuardState) (t1 t2 t3 t4 t5 : Transport) (A B C : Nat),
      A ≠ B → A ≠ C → B ≠ C →
      totals_after 2
        [⟨1, A, t1⟩, ⟨1, B, t2⟩, ⟨1, C, t3⟩, ⟨1, C, t4⟩, ⟨1, A, t5⟩]
        { cm := (count_manager_init s0).1, mq := g0 } = some [1, 2, 3, 4, 4]) :=
  ⟨by decide, by decide, overcount_when_full 2 full_world 30 (by decide) (by decide)⟩


/-! ## Claims about the publish guard -/

/-- C5: for every guard state and non-null topic, `mqtt_do_publish` returns
`MOSQ_ERR_NO_CONN`, makes no library call and changes no state when the handle
is absent or `mqtt_connected` is false; otherwise it makes exactly one library
call, `mosquitto_publish` on the current handle, and returns success with the
state unchanged if the library reports success, or the library's failure code
with `mqtt_connected` cleared and the handle unchanged if it reports failure. -/
theorem do_publish_result (g : GuardState) (topic : String) (payload : String)
    (payloadlen : Nat) (qos : Int) (retain : Bool) (t : Transport) :
    ((g.mosq = none ∨ g.mqtt_connected = false) →
      (mqtt_do_publish (some topic) payload payloadlen qos retain t g).1 = MOSQ_ERR_NO_CONN ∧
      (mqtt_do_publish (some topic) payload payloadlen qos retain t g).2.1 = g ∧
      transportCalls (mqtt_do_publish (some topic) payload payloadlen qos retain t g).2.2 = []) ∧
    (∀ m, g.mosq = some m → g.mqtt_connected = true →
      transportCalls (mqtt_do_publish (some topic) payload payloadlen qos retain t g).2.2
        = [Event.mosquitto_publish m topic payloadlen payload qos retain] ∧
      (t.publish_rc = MOSQ_ERR_SUCCESS →
        (mqtt_do_publish (some topic) payload payloadlen qos retain t g).1 = MOSQ_ERR_SUCCESS ∧
        (mqtt_do_publish (some topic) payload payloadlen qos retain t g).2.1 = g) ∧
      (t.publish_rc ≠ MOSQ_ERR_SUCCESS →
        (mqtt_do_publish (some topic) payload payloadlen qos retain t g).1 = t.publish_rc ∧
        (mqtt_do_publish (some topic) payload payloadlen qos retain t g).2.1
          = { g with mqtt_connected := false } ∧
        (mqtt_do_publish (some topic) payload payloadlen qos retain t g).2.1.mosq = some m)) := by
  refine ⟨?_, ?_⟩
  · rintro (h | h)
    · simp [mqtt_do_publish, h, transportCalls, Event.isTransportCall]
    · cases hm : g.mosq <;>
        simp [mqtt_do_publish, h, hm, transportCalls, Event.isTransportCall]
  · intro m hm hc
    refine ⟨?_, ?_, ?_⟩
    · by_cases hrc : t.publish_rc = MOSQ_ERR_SUCCESS <;>
        simp [mqtt_do_publish, hm, hc, hrc, transportCalls, Event.isTransportCall]
    · intro hrc
      simp [mqtt_do_publish, hm, hc, hrc]
    · intro hrc
      simp [mqtt_do_publish, hm, hc, hrc]

/-- Witness for C5: a publish on a connected guard whose library call fails
with status 14, and the same publish repeated on the state that leaves. -/
theorem do_publish_result_witness :
    (mqtt_do_publish (some "deepstream/count") "7" 1 0 false ⟨none, 0, 0, 14⟩
        ⟨some 1, true, "broker", 1883⟩).1 = 14 ∧
    (mqtt_do_publish (some "deepstream/count") "7" 1 0 false ⟨none, 0, 0, 14⟩
        ⟨some 1, true, "broker", 1883⟩).2.1 = ⟨some 1, false, "broker", 1883⟩ ∧
    (mqtt_do_publish (some "deepstream/count") "7" 1 0 false ⟨none, 0, 0, 14⟩
        ⟨some 1, false, "broker", 1883⟩).1 = MOSQ_ERR_NO_CONN :=
  ⟨((do_publish_result ⟨some 1, true, "broker", 1883⟩ "deepstream/count" "7" 1 0 false
        ⟨none, 0, 0, 14⟩).2 1 rfl rfl).2.2 (by decide) |>.1,
   ((do_publish_result ⟨some 1, true, "broker", 1883⟩ "deepstream/count" "7" 1 0 false
        ⟨none, 0, 0, 14⟩).2 1 rfl rfl).2.2 (by decide) |>.2.1,
   ((do_publish_result ⟨some 1, false, "broker", 1883⟩ "deepstream/count" "7" 1 0 false
        ⟨none, 0, 0, 14⟩).1 (Or.inr rfl)).1⟩

/-- C6: once `mqtt_do_publish` has called the library and returned its failure
code, then along every sequence of guard operations without a connect
notification of status 0 the flag stays false, every publish operation makes no
library call and has status `MOSQ_ERR_NO_CONN` (it has a status whenever its
arguments pass the null checks); and no operation other than `on_connect` with
`rc == 0` turns the flag on. -/
theorem failure_latch (g : GuardState) (topic payload : String) (payloadlen : Nat) (qos : Int)
    (retain : Bool) (t : Transport)
    (hcalled : publishCalls (mqtt_do_publish (some topic) payload payloadlen qos retain t g).2.2
      ≠ [])
    (hfailed : (mqtt_do_publish (some topic) payload payloadlen qos retain t g).1
      ≠ MOSQ_ERR_SUCCESS)
    (ops : List GuardOp) (hops : ∀ op ∈ ops, op ≠ GuardOp.connect_notification 0) :
    (mqtt_do_publish (some topic) payload payloadlen qos retain t g).2.1.mqtt_connected = false ∧
    (guard_run ops (mqtt_do_publish (some topic) payload payloadlen qos retain t g).2.1).1.mqtt_connected
      = false ∧
    (∀ p ∈ List.zip ops
        (guard_run ops (mqtt_do_publish (some topic) payload payloadlen qos retain t g).2.1).2,
      p.1.isPublish = true →
        (p.2.1 = none ∨ p.2.1 = some MOSQ_ERR_NO_CONN) ∧ transportCalls p.2.2 = [] ∧
        (p.1.reachesDoPublish = true → p.2.1 = some MOSQ_ERR_NO_CONN)) ∧
    (∀ (op : GuardOp) (g0 : GuardState), (guard_step op g0).2.1.mqtt_connected = true →
      g0.mqtt_connected = true ∨ op = GuardOp.connect_notification 0) := by
  have hflag : (mqtt_do_publish (some topic) payload payloadlen qos retain t g).2.1.mqtt_connected
      = false := by
    by_cases hu : g.mosq = none ∨ g.mqtt_connected = false
    · rw [do_publish_not_connected topic payload payloadlen qos retain t g hu] at hcalled
      exact absurd rfl hcalled
    · push_neg at hu
      obtain ⟨m, hm⟩ := Option.ne_none_iff_exists'.mp hu.1
      have hc : g.mqtt_connected = true := by simpa using hu.2
      by_cases hrc : t.publish_rc = MOSQ_ERR_SUCCESS
      · exfalso; apply hfailed; simp [mqtt_do_publish, hm, hc, hrc]
      · simp [mqtt_do_publish, hm, hc, hrc]
  obtain ⟨hfin, hall⟩ := guard_run_latched ops _ hflag hops
  refine ⟨hflag, hfin, ?_, guard_step_flag⟩
  intro p hp hpub
  refine ⟨(hall p hp hpub).1, (hall p hp hpub).2, ?_⟩
  intro hr
  rcases (hall p hp hpub).1 with h | h
  · exact absurd h (guard_run_status_some ops _ p hp hr)
  · exact h

/-- Witness for C6: a publish fails with status 14 on a connected guard; then a
failed connect notification, two publishes, a new `mqtt_client_init` and a
disconnect notification follow. -/
theorem failure_latch_witness :
    publishCalls (mqtt_do_publish (some "deepstream/count") "7" 1 0 false ⟨none, 0, 0, 14⟩
        ⟨some 1, true, "broker", 1883⟩).2.2 ≠ [] ∧
    (mqtt_do_publish (some "deepstream/count") "7" 1 0 false ⟨none, 0, 0, 14⟩
        ⟨some 1, true, "broker", 1883⟩).1 ≠ MOSQ_ERR_SUCCESS ∧
    (∀ op ∈ [GuardOp.connect_notification 5,
              GuardOp.publish (some "deepstream/count") (some "8") ⟨none, 0, 0, 0⟩,
              GuardOp.init (some "broker") 1883 ⟨some 2, 0, 0, 0⟩,
              GuardOp.publish_uint64 (some "deepstream/count") 9 ⟨none, 0, 0, 0⟩,
              GuardOp.disconnect_notification 0],
      op ≠ GuardOp.connect_notification 0) ∧
    (guard_run [GuardOp.connect_notification 5,
              GuardOp.publish (some "deepstream/count") (some "8") ⟨none, 0, 0, 0⟩,
              GuardOp.init (some "broker") 1883 ⟨some 2, 0, 0, 0⟩,
              GuardOp.publish_uint64 (some "deepstream/count") 9 ⟨none, 0, 0, 0⟩,
              GuardOp.disconnect_notification 0]
      (mqtt_do_publish (some "deepstream/count") "7" 1 0 false ⟨none, 0, 0, 14⟩
        ⟨some 1, true, "broker", 1883⟩).2.1).1.mqtt_connected = false :=
  ⟨by decide, by decide, by decide,
    (failure_latch ⟨some 1, true, "broker", 1883⟩ "deepstream/count" "7" 1 0 false
      ⟨none, 0, 0, 14⟩ (by decide) (by decide)
      [GuardOp.connect_notification 5,
        GuardOp.publish (some "deepstream/count") (some "8") ⟨none, 0, 0, 0⟩,
        GuardOp.init (some "broker") 1883 ⟨some 2, 0, 0, 0⟩,
        GuardOp.publish_uint64 (some "deepstream/count") 9 ⟨none, 0, 0, 0⟩,
        GuardOp.disconnect_notification 0] (by decide)).2.1⟩

/-- C7, refuted as stated: `mqtt_client_init`, a connect notification with
status 0, then a second `mqtt_client_init` whose `mosquitto_new` returns `NULL`
(or whose `mosquitto_loop_start` fails): `mqtt_connected` is still true when
the second call returns. -/
theorem init_failure_flag_counterexample :
    (guard_run [GuardOp.init (some "broker") 1883 ⟨some 1, 0, 0, 0⟩,
                GuardOp.connect_notification 0] GuardState.initial).1
      = ⟨some 1, true, "broker", 1883⟩ ∧
    ¬ (mqtt_client_init (some "broker") 1883 ⟨none, 0, 0, 0⟩
        ⟨some 1, true, "broker", 1883⟩).1.mqtt_connected = false ∧
    ¬ (mqtt_client_init (some "broker") 1883 ⟨some 2, 1, 0, 0⟩
        ⟨some 1, true, "broker", 1883⟩).1.mqtt_connected = false := by
  decide

/-- C7, amended: for every prior guard state and each of the three setup
failures of `mqtt_client_init` with a valid host and port, the guard is not
usable when the call returns: the handle is absent after an allocation or
loop-start failure, `mqtt_connected` is false after a `mosquitto_connect_async`
failure, and it is false in all three cases if it was false before the call;
the next publish returns `MOSQ_ERR_NO_CONN`, changes nothing and makes no
library call. -/
theorem init_failure_unusable (g : GuardState) (host : String) (port : Int) (t : Transport)
    (hport : 0 < port)
    (hfail : t.new_result = none ∨ t.loop_start_rc ≠ MOSQ_ERR_SUCCESS ∨
      t.connect_async_rc ≠ MOSQ_ERR_SUCCESS) :
    ((t.new_result = none ∨ t.loop_start_rc ≠ MOSQ_ERR_SUCCESS) →
      (mqtt_client_init (some host) port t g).1.mosq = none) ∧
    ((∃ m, t.new_result = some m) → t.loop_start_rc = MOSQ_ERR_SUCCESS →
      (mqtt_client_init (some host) port t g).1.mqtt_connected = false) ∧
    (g.mqtt_connected = false →
      (mqtt_client_init (some host) port t g).1.mqtt_connected = false) ∧
    (∀ (topic payload : String) (payloadlen : Nat) (qos : Int) (retain : Bool) (t1 : Transport),
      (mqtt_do_publish (some topic) payload payloadlen qos retain t1
          (mqtt_client_init (some host) port t g).1).1 = MOSQ_ERR_NO_CONN ∧
      (mqtt_do_publish (some topic) payload payloadlen qos retain t1
          (mqtt_client_init (some host) port t g).1).2.1 = (mqtt_client_init (some host) port t g).1 ∧
      transportCalls (mqtt_do_publish (some topic) payload payloadlen qos retain t1
          (mqtt_client_init (some host) port t g).1).2.2 = []) := by
  obtain ⟨hA, hB, hC⟩ := init_failure_state host port t g hport
  have hcases : (mqtt_client_init (some host) port t g).1.mosq = none ∧
        (mqtt_client_init (some host) port t g).1.mqtt_connected = g.mqtt_connected ∧
        (t.new_result = none ∨ t.loop_start_rc ≠ MOSQ_ERR_SUCCESS) ∨
      (mqtt_client_init (some host) port t g).1.mqtt_connected = false ∧
        ¬ (t.new_result = none ∨ t.loop_start_rc ≠ MOSQ_ERR_SUCCESS) := by
    cases hn : t.new_result with
    | none => left; rw [hA hn]; exact ⟨rfl, rfl, Or.inl rfl⟩
    | some m =>
      by_cases hl : t.loop_start_rc = MOSQ_ERR_SUCCESS
      · have hc : t.connect_async_rc ≠ MOSQ_ERR_SUCCESS := by
          rcases hfail with h | h | h
          · rw [hn] at h; exact absurd h (by simp)
          · exact absurd hl h
          · exact h
        right; rw [hC m hn hl hc]; exact ⟨rfl, by simp [hl]⟩
      · left; rw [hB m hn hl]; exact ⟨rfl, rfl, Or.inr hl⟩
  have hunusable : (mqtt_client_init (some host) port t g).1.mosq = none ∨
      (mqtt_client_init (some host) port t g).1.mqtt_connected = false := by
    rcases hcases with h | h
    · exact Or.inl h.1
    · exact Or.inr h.1
  refine ⟨?_, ?_, ?_, ?_⟩
  · intro h
    rcases hcases with h1 | h1
    · exact h1.1
    · exact absurd h h1.2
  · rintro ⟨m, hn⟩ hl
    rcases hcases with h1 | h1
    · rcases h1.2.2 with h2 | h2
      · rw [hn] at h2; exact absurd h2 (by simp)
      · exact absurd hl h2
    · exact h1.1
  · intro hg
    rcases hcases with h1 | h1
    · rw [h1.2.1]; exact hg
    · exact h1.1
  · intro topic payload payloadlen qos retain t1
    rw [do_publish_not_connected topic payload payloadlen qos retain t1 _ hunusable]
    exact ⟨rfl, rfl, rfl⟩

/-- Witness for the amended C7: a loop-start failure (status 1) of a second
`mqtt_client_init` on a connected guard. -/
theorem init_failure_unusable_witness :
    (0 : Int) < 1883 ∧
    (mqtt_client_init (some "broker") 1883 ⟨some 2, 1, 0, 0⟩
        ⟨some 1, true, "broker", 1883⟩).1.mosq = none ∧
    (mqtt_do_publish (some "deepstream/count") "7" 1 0 false ⟨none, 0, 0, 0⟩
        (mqtt_client_init (some "broker") 1883 ⟨some 2, 1, 0, 0⟩
          ⟨some 1, true, "broker", 1883⟩).1).1 = MOSQ_ERR_NO_CONN :=
  ⟨by decide,
    (init_failure_unusable ⟨some 1, true, "broker", 1883⟩ "broker" 1883 ⟨some 2, 1, 0, 0⟩
      (by decide) (Or.inr (Or.inl (by decide)))).1 (Or.inr (by decide)),
    ((init_failure_unusable ⟨some 1, true, "broker", 1883⟩ "broker" 1883 ⟨some 2, 1, 0, 0⟩
      (by decide) (Or.inr (Or.inl (by decide)))).2.2.2 "deepstream/count" "7" 1 0 false
      ⟨none, 0, 0, 0⟩).1⟩

/-- C8, refuted as stated: `mqtt_client_deinit` on a guard with no handle and
the flag set (the state after `mqtt_client_init`, a connect notification of
status 0 and a second `mqtt_client_init` whose allocation fails) leaves
`mqtt_connected` true. -/
theorem deinit_flag_counterexample :
    (guard_run [GuardOp.init (some "broker") 1883 ⟨some 1, 0, 0, 0⟩,
                GuardOp.connect_notification 0,
                GuardOp.init (some "broker") 1883 ⟨none, 0, 0, 0⟩] GuardState.initial).1
      = ⟨none, true, "broker", 1883⟩ ∧
    ¬ (mqtt_client_deinit ⟨none, true, "broker", 1883⟩).1.mqtt_connected = false := by
  decide

/-- C8, amended: for every guard state, after `mqtt_client_deinit` the handle
is absent; `mqtt_connected` is false if a handle was present before the call or
the flag was already false, and with no handle present the call changes no
guard state; every publish operation before the next `mqtt_client_init` makes
no library call and has status `MOSQ_ERR_NO_CONN`.  In every sequence of guard
operations from the initial state, with handles named by allocation
(`mosquitto_new` never returns the same one twice), no library call is made on
a handle after `mosquitto_destroy` was called on it. -/
theorem deinit_teardown (g : GuardState) (ops : List GuardOp)
    (hnoinit : ∀ op ∈ ops, op.isInit = false) (run : List GuardOp)
    (hfresh : (allocated (guard_events run GuardState.initial)).Nodup) :
    (mqtt_client_deinit g).1.mosq = none ∧
    ((g.mosq ≠ none ∨ g.mqtt_connected = false) →
      (mqtt_client_deinit g).1.mqtt_connected = false) ∧
    (g.mosq = none → (mqtt_client_deinit g).1 = g) ∧
    (∀ p ∈ List.zip ops (guard_run ops (mqtt_client_deinit g).1).2, p.1.isPublish = true →
      (p.2.1 = none ∨ p.2.1 = some MOSQ_ERR_NO_CONN) ∧ transportCalls p.2.2 = [] ∧
      (p.1.reachesDoPublish = true → p.2.1 = some MOSQ_ERR_NO_CONN)) ∧
    no_use_after_destroy (guard_events run GuardState.initial) := by
  have hnone : (mqtt_client_deinit g).1.mosq = none := by
    cases hm : g.mosq <;> simp [mqtt_client_deinit, hm]
  refine ⟨hnone, ?_, ?_, ?_, ?_⟩
  · intro h
    cases hm : g.mosq with
    | some m => simp [mqtt_client_deinit, hm]
    | none =>
      rcases h with h | h
      · exact absurd hm h
      · simp [mqtt_client_deinit, hm, h]
  · intro hm
    simp [mqtt_client_deinit, hm]
  · intro p hp hpub
    have hall := (guard_run_no_handle ops _ hnone hnoinit).2 p hp hpub
    refine ⟨hall.1, hall.2, ?_⟩
    intro hr
    rcases hall.1 with h | h
    · exact absurd h (guard_run_status_some ops _ p hp hr)
    · exact h
  · exact guard_events_safe run GuardState.initial hfresh (by simp [GuardState.initial])

/-- Witness for the amended C8: teardown of a connected guard followed by a
connect notification and a publish; and a run in which a handle is destroyed
by a failed setup, another by teardown, and a third is published on. -/
theorem deinit_teardown_witness :
    (∀ op ∈ [GuardOp.connect_notification 0,
              GuardOp.publish (some "deepstream/count") (some "8") ⟨none, 0, 0, 0⟩],
      op.isInit = false) ∧
    (allocated (guard_events
      [GuardOp.init (some "broker") 1883 ⟨some 1, 1, 0, 0⟩,
        GuardOp.init (some "broker") 1883 ⟨some 2, 0, 0, 0⟩,
        GuardOp.connect_notification 0,
        GuardOp.publish (some "deepstream/count") (some "1") ⟨none, 0, 0, 0⟩,
        GuardOp.deinit,
        GuardOp.init (some "broker") 1883 ⟨some 3, 0, 0, 0⟩,
        GuardOp.connect_notification 0,
        GuardOp.publish (some "deepstream/count") (some "2") ⟨none, 0, 0, 0⟩]
      GuardState.initial)).Nodup ∧
    (mqtt_client_deinit ⟨some 1, true, "broker", 1883⟩).1.mosq = none ∧
    no_use_after_destroy (guard_events
      [GuardOp.init (some "broker") 1883 ⟨some 1, 1, 0, 0⟩,
        GuardOp.init (some "broker") 1883 ⟨some 2, 0, 0, 0⟩,
        GuardOp.connect_notification 0,
        GuardOp.publish (some "deepstream/count") (some "1") ⟨none, 0, 0, 0⟩,
        GuardOp.deinit,
        GuardOp.init (some "broker") 1883 ⟨some 3, 0, 0, 0⟩,
        GuardOp.connect_notification 0,
        GuardOp.publish (some "deepstream/count") (some "2") ⟨none, 0, 0, 0⟩]
      GuardState.initial) :=
  ⟨by decide, by decide,
    (deinit_teardown ⟨some 1, true, "broker", 1883⟩
      [GuardOp.connect_notification 0,
        GuardOp.publish (some "deepstream/count") (some "8") ⟨none, 0, 0, 0⟩] (by decide)
      [GuardOp.init (some "broker") 1883 ⟨some 1, 1, 0, 0⟩,
        GuardOp.init (some "broker") 1883 ⟨some 2, 0, 0, 0⟩,
        GuardOp.connect_notification 0,
        GuardOp.publish (some "deepstream/count") (some "1") ⟨none, 0, 0, 0⟩,
        GuardOp.deinit,
        GuardOp.init (some "broker") 1883 ⟨some 3, 0, 0, 0⟩,
        GuardOp.connect_notification 0,
        GuardOp.publish (some "deepstream/count") (some "2") ⟨none, 0, 0, 0⟩] (by decide)).1,
    (deinit_teardown ⟨some 1, true, "broker", 1883⟩
      [GuardOp.connect_notification 0,
        GuardOp.publish (some "deepstream/count") (some "8") ⟨none, 0, 0, 0⟩] (by decide)
      [GuardOp.init (some "broker") 1883 ⟨some 1, 1, 0, 0⟩,
        GuardOp.init (some "broker") 1883 ⟨some 2, 0, 0, 0⟩,
        GuardOp.connect_notification 0,
        GuardOp.publish (some "deepstream/count") (some "1") ⟨none, 0, 0, 0⟩,
        GuardOp.deinit,
        GuardOp.init (some "broker") 1883 ⟨some 3, 0, 0, 0⟩,
        GuardOp.connect_notification 0,
        GuardOp.publish (some "deepstream/count") (some "2") ⟨none, 0, 0, 0⟩] (by decide)).2.2.2.2⟩

/-- C9, refuted as stated: `mqtt_client_init` with the empty host `""` and port
1883 stores the port, installs a handle and calls the library; and
`mqtt_client_publish` with an empty payload (or an empty topic) on a connected
guard calls `mosquitto_publish`. -/
theorem empty_input_counterexample :
    (mqtt_client_init (some "") 1883 ⟨some 1, 0, 0, 0⟩ GuardState.initial).1
      = ⟨some 1, false, "", 1883⟩ ∧
    (mqtt_client_init (some "") 1883 ⟨some 1, 0, 0, 0⟩ GuardState.initial).1
      ≠ GuardState.initial ∧
    transportCalls (mqtt_client_init (some "") 1883 ⟨some 1, 0, 0, 0⟩ GuardState.initial).2
      ≠ [] ∧
    transportCalls (mqtt_client_publish (some "deepstream/count") (some "") ⟨none, 0, 0, 0⟩
        ⟨some 1, true, "broker", 1883⟩).2.2
      = [Event.mosquitto_publish 1 "deepstream/count" 0 "" 0 false] ∧
    transportCalls (mqtt_client_publish (some "") (some "7") ⟨none, 0, 0, 0⟩
        ⟨some 1, true, "broker", 1883⟩).2.2
      = [Event.mosquitto_publish 1 "" 1 "7" 0 false] ∧
    (mqtt_client_publish (some "") (some "") ⟨none, 0, 0, 5⟩
        ⟨some 1, true, "broker", 1883⟩).2.1 ≠ ⟨some 1, true, "broker", 1883⟩ := by
  decide

/-- C9, amended: for every guard state, `mqtt_client_init` called with a null
host (or a port that is not positive), `mqtt_client_publish` called with a null
topic or a null payload, and `mqtt_do_publish` called with a null topic return
with the guard state (handle, flag, stored host and port) unchanged and without
a library call; `mqtt_do_publish` then returns `MOSQ_ERR_INVAL`. -/
theorem null_input_rejected (g : GuardState) (t : Transport) :
    (∀ (host : Option String) (port : Int), (host = none ∨ port ≤ 0) →
      mqtt_client_init host port t g = (g, [])) ∧
    (∀ (topic payload : Option String), (topic = none ∨ payload = none) →
      (mqtt_client_publish topic payload t g).1 = none ∧
      (mqtt_client_publish topic payload t g).2.1 = g ∧
      transportCalls (mqtt_client_publish topic payload t g).2.2 = []) ∧
    (∀ (payload : String) (payloadlen : Nat) (qos : Int) (retain : Bool),
      mqtt_do_publish none payload payloadlen qos retain t g = (MOSQ_ERR_INVAL, g, [])) := by
  refine ⟨fun host port h => init_invalid host port t g h, ?_, fun _ _ _ _ => rfl⟩
  intro topic payload h
  cases topic <;> cases payload <;>
    simp [mqtt_client_publish, transportCalls, Event.isTransportCall] at h ⊢

/-- Witness for the amended C9: a null host, and a null payload, on a connected
guard. -/
theorem null_input_rejected_witness :
    mqtt_client_init none 1883 ⟨some 2, 0, 0, 0⟩ ⟨some 1, true, "broker", 1883⟩
      = (⟨some 1, true, "broker", 1883⟩, []) ∧
    (mqtt_client_publish (some "deepstream/count") none ⟨some 2, 0, 0, 0⟩
      ⟨some 1, true, "broker", 1883⟩).2.1 = ⟨some 1, true, "broker", 1883⟩ :=
  ⟨(null_input_rejected ⟨some 1, true, "broker", 1883⟩ ⟨some 2, 0, 0, 0⟩).1 none 1883
      (Or.inl rfl),
    ((null_input_rejected ⟨some 1, true, "broker", 1883⟩ ⟨some 2, 0, 0, 0⟩).2.1
      (some "deepstream/count") none (Or.inr rfl)).2.1⟩


/-! ## Claim about the published message -/

/-- C10: a call `count_manager_process_obj(1, id)` that does not find `id`
among the stored ids, whether the array has room or is full, requests exactly
one publish, with topic `"deepstream/count"` and as payload the decimal text of
the total after the increment: all its digits (at least 1 and at most 20, so
the 64-byte buffer cuts nothing off for any 64-bit value), no leading zero,
reading back as that total; the library call it leads to, if any, carries that
topic, that payload and as `payloadlen` the number of characters of the
payload, with `retain = false`.  A call that finds `id` requests no publish. -/
theorem published_message_shape (cap : Nat) (id : Nat) (t : Transport) (w : World)
    (h0 : 0 ≤ w.cm.seen_count) (hle : w.cm.seen_count ≤ (cap : Int)) :
    (id ∉ w.cm.stored →
      ∃ w1 ev payload,
        count_manager_process_obj cap 1 id t w = some (w1, ev) ∧
        publishRequests ev = [Event.publish_request (some "deepstream/count") (some payload)] ∧
        w1.cm.total_count = (w.cm.total_count + 1) % 2 ^ 64 ∧
        payload = snprintf_llu 64 w1.cm.total_count ∧
        payload = Nat.repr w1.cm.total_count ∧
        payload.toList = Nat.toDigits 10 w1.cm.total_count ∧
        1 ≤ payload.length ∧ payload.length ≤ 20 ∧ strlen payload = payload.length ∧
        decimal_value payload = some w1.cm.total_count ∧
        (payload = "0" ∨ payload.toList.head? ≠ some '0') ∧
        ((w.mq.mosq = none ∨ w.mq.mqtt_connected = false) → transportCalls ev = []) ∧
        (∀ m, w.mq.mosq = some m → w.mq.mqtt_connected = true →
          transportCalls ev
            = [Event.mosquitto_publish m "deepstream/count" payload.length payload 0 false])) ∧
    (id ∈ w.cm.stored →
      ∃ w1 ev,
        count_manager_process_obj cap 1 id t w = some (w1, ev) ∧
        publishRequests ev = [] ∧ transportCalls ev = []) ∧
    (∀ v, v < 2 ^ 64 →
      snprintf_llu 64 v = String.mk (Nat.toDigits 10 v) ∧ decimal_value (snprintf_llu 64 v) = some v)
    := by
  refine ⟨?_, ?_, ?_⟩
  · intro hin
    obtain ⟨w1, warn, hrun, htot, _, hwarn⟩ := process_obj_absent cap id t w h0 hle hin
    have hlt : (w.cm.total_count + 1) % 2 ^ 64 < 2 ^ 64 := Nat.mod_lt _ (by norm_num)
    obtain ⟨hdig, hrepr, hlen, hval, hlead⟩ := snprintf_llu_spec _ hlt
    have hpos : 1 ≤ (snprintf_llu 64 ((w.cm.total_count + 1) % 2 ^ 64)).length := by
      rw [hdig]
      exact List.length_pos.mpr (toDigits_ne_nil _)
    obtain ⟨hreq, hnocall, hcall⟩ := client_publish_events "deepstream/count"
      (snprintf_llu 64 ((w.cm.total_count + 1) % 2 ^ 64)) t w.mq
    have hwr : publishRequests warn = [] := by
      rcases hwarn with h | h <;> rw [h] <;> rfl
    have hwt : transportCalls warn = [] := by
      rcases hwarn with h | h <;> rw [h] <;> rfl
    refine ⟨w1, _, snprintf_llu 64 ((w.cm.total_count + 1) % 2 ^ 64), hrun, ?_, htot,
      by rw [htot], by rw [htot]; exact hrepr, by rw [htot, hdig]; rfl, hpos, hlen, rfl,
      by rw [htot]; exact hval, ?_, ?_, ?_⟩
    · simp only [publishRequests_append, hreq, hwr]
      rfl
    · rcases hlead with h | h
      · exact Or.inl h.2
      · exact Or.inr h.2
    · intro hu
      simp only [transportCalls_append, hnocall hu, hwt]
      rfl
    · intro m hm hc
      simp only [transportCalls_append, hcall m hm hc, hwt]
      rfl
  · intro hin
    exact ⟨w, _, process_obj_present cap id t w hle hin, rfl, rfl⟩
  · intro v hv
    exact ⟨(snprintf_llu_spec v hv).1, (snprintf_llu_spec v hv).2.2.2.1⟩

/-- Witness for C10: id 30 observed on a full two-cell counter with total 2
and on a connected guard. -/
theorem published_message_shape_witness :
    (0 : Int) ≤ full_world_connected.cm.seen_count ∧
    full_world_connected.cm.seen_count ≤ ((2 : Nat) : Int) ∧
    30 ∉ full_world_connected.cm.stored ∧
    ∃ w1 ev payload,
      count_manager_process_obj 2 1 30 ⟨none, 0, 0, 0⟩ full_world_connected = some (w1, ev) ∧
      publishRequests ev = [Event.publish_request (some "deepstream/count") (some payload)] ∧
      w1.cm.total_count = (full_world_connected.cm.total_count + 1) % 2 ^ 64 ∧
      payload = snprintf_llu 64 w1.cm.total_count ∧
      payload = Nat.repr w1.cm.total_count ∧
      payload.toList = Nat.toDigits 10 w1.cm.total_count ∧
      1 ≤ payload.length ∧ payload.length ≤ 20 ∧ strlen payload = payload.length ∧
      decimal_value payload = some w1.cm.total_count ∧
      (payload = "0" ∨ payload.toList.head? ≠ some '0') ∧
      ((full_world_connected.mq.mosq = none ∨ full_world_connected.mq.mqtt_connected = false) →
        transportCalls ev = []) ∧
      (∀ m, full_world_connected.mq.mosq = some m →
        full_world_connected.mq.mqtt_connected = true →
        transportCalls ev
          = [Event.mosquitto_publish m "deepstream/count" payload.length payload 0 false]) :=
  ⟨by decide, by decide, by decide,
    (published_message_shape 2 30 ⟨none, 0, 0, 0⟩ full_world_connected (by decide)
      (by decide)).1 (by decide)⟩


/-! ## Further claims about the counter and the notifications -/

/-- C11: for every counter state, `class_id` and `object_id`, whatever the two
guard states and the two answers of the library, both runs of
`count_manager_process_obj` return or neither does, and they leave the same
counter state (total, cells, fill level, warning flag).  A call that does not
find the id raises the total whatever status the publish has, also
`MOSQ_ERR_NO_CONN` or a failure code of the library. -/
theorem counting_independent_of_connection (cap : Nat) (class_id : Int) (object_id : Nat)
    (c : CounterState) (g1 g2 : GuardState) (t1 t2 : Transport) :
    (count_manager_process_obj cap class_id object_id t1 { cm := c, mq := g1 }).map
        (fun r => r.1.cm)
      = (count_manager_process_obj cap class_id object_id t2 { cm := c, mq := g2 }).map
        (fun r => r.1.cm) ∧
    (0 ≤ c.seen_count → c.seen_count ≤ (cap : Int) → object_id ∉ c.stored →
      ∃ w1 ev, count_manager_process_obj cap 1 object_id t1 { cm := c, mq := g1 } = some (w1, ev) ∧
        w1.cm.total_count = (c.total_count + 1) % 2 ^ 64 ∧
        w1.mq = (mqtt_client_publish (some "deepstream/count")
                  (some (snprintf_llu 64 ((c.total_count + 1) % 2 ^ 64))) t1 g1).2.1) := by
  refine ⟨?_, ?_⟩
  · unfold count_manager_process_obj
    by_cases hc : class_id = 1
    · simp only [hc, ne_eq, not_true_eq_false, if_false]
      cases hs : has_seen_before_locked cap object_id c with
      | none => rfl
      | some b =>
        cases b with
        | true => rfl
        | false =>
          simp only []
          cases hm : mark_seen_locked cap object_id
              { total_count := (c.total_count + 1) % 2 ^ 64, seen_ids := c.seen_ids,
                seen_count := c.seen_count, overflow_warned := c.overflow_warned } with
          | none => rfl
          | some r => rfl
    · simp [hc]
  · intro h0 hle hin
    obtain ⟨w1, _, hrun, htot, hmq, _⟩ :=
      process_obj_absent cap object_id t1 { cm := c, mq := g1 } h0 hle hin
    exact ⟨w1, _, hrun, htot, hmq⟩

/-- Witness for C11: id 30 observed on a full two-cell counter, once with no
connection and once on a connected guard whose library call fails. -/
theorem counting_independent_of_connection_witness :
    (count_manager_process_obj 2 1 30 ⟨none, 0, 0, 0⟩
        { cm := full_world.cm, mq := GuardState.initial }).map (fun r => r.1.cm.total_count)
      = some 3 ∧
    (count_manager_process_obj 2 1 30 ⟨none, 0, 0, 14⟩
        { cm := full_world.cm, mq := ⟨some 1, true, "broker", 1883⟩ }).map
          (fun r => r.1.cm.total_count)
      = some 3 ∧
    (count_manager_process_obj 2 1 30 ⟨none, 0, 0, 0⟩
        { cm := full_world.cm, mq := GuardState.initial }).map (fun r => r.1.cm)
      = (count_manager_process_obj 2 1 30 ⟨none, 0, 0, 14⟩
        { cm := full_world.cm, mq := ⟨some 1, true, "broker", 1883⟩ }).map (fun r => r.1.cm) :=
  ⟨by decide, by decide,
    (counting_independent_of_connection 2 1 30 full_world.cm GuardState.initial
      ⟨some 1, true, "broker", 1883⟩ ⟨none, 0, 0, 0⟩ ⟨none, 0, 0, 14⟩).1⟩

/-- C16: in every counter state reachable from `count_manager_init` by calls of
`count_manager_process_obj` (and of `count_manager_get_total`, which changes
nothing), if `seen_count < MAX_TRACKED` then `total_count` equals `seen_count`,
the number of ids stored. -/
theorem total_equals_stored_while_room (s : CounterState) (hr : CounterReachable MAX_TRACKED s)
    (hroom : s.seen_count < (MAX_TRACKED : Int)) :
    (s.total_count : Int) = s.seen_count ∧ s.total_count = s.stored.length ∧
    (count_manager_get_total s).1 = s.stored.length := by
  have hinv := counterInv_of_reachable MAX_TRACKED (by decide) s hr
  have ht := hinv.total_eq hroom
  have h0 := hinv.nonneg
  refine ⟨by omega, by rw [stored_length]; exact ht, ?_⟩
  simp only [count_manager_get_total, stored_length]
  exact ht

/-- Witness for C16: the state after `count_manager_init` and one observation
of id 5. -/
theorem total_equals_stored_while_room_witness :
    CounterReachable MAX_TRACKED
      ({ cm := (count_manager_init CounterState.initial).1.inserted 5,
         mq := GuardState.initial } : World).cm ∧
    ((count_manager_init CounterState.initial).1.inserted 5).seen_count < (MAX_TRACKED : Int) ∧
    (((count_manager_init CounterState.initial).1.inserted 5).total_count : Int)
      = ((count_manager_init CounterState.initial).1.inserted 5).seen_count :=
  ⟨CounterReachable.process_obj 1 5 ⟨none, 0, 0, 0⟩
      { cm := (count_manager_init CounterState.initial).1, mq := GuardState.initial } _ _
      (CounterReachable.init CounterState.initial)
      (process_obj_insert MAX_TRACKED 5 ⟨none, 0, 0, 0⟩
        { cm := (count_manager_init CounterState.initial).1, mq := GuardState.initial }
        (by decide) (by decide) (by decide)),
    by decide,
    (total_equals_stored_while_room ((count_manager_init CounterState.initial).1.inserted 5)
      (CounterReachable.process_obj 1 5 ⟨none, 0, 0, 0⟩
        { cm := (count_manager_init CounterState.initial).1, mq := GuardState.initial } _ _
        (CounterReachable.init CounterState.initial)
        (process_obj_insert MAX_TRACKED 5 ⟨none, 0, 0, 0⟩
          { cm := (count_manager_init CounterState.initial).1, mq := GuardState.initial }
          (by decide) (by decide) (by decide)))
      (by decide)).1⟩

/-- C17: for every guard state and status `rc`, `on_connect` sets
`mqtt_connected` to true exactly when `rc == 0` and to false otherwise,
`on_disconnect` sets it to false; both leave the handle, the stored host and
the stored port unchanged, take and release `mqtt_lock` and make no library
call. -/
theorem notifications_change_flag_only (g : GuardState) (rc : Int) :
    ((on_connect rc g).1.mqtt_connected = true ↔ rc = 0) ∧
    (on_connect rc g).1.mosq = g.mosq ∧ (on_connect rc g).1.last_host = g.last_host ∧
    (on_connect rc g).1.last_port = g.last_port ∧
    (on_connect rc g).2 = [Event.lock Lock.mqtt_lock, Event.unlock Lock.mqtt_lock] ∧
    transportCalls (on_connect rc g).2 = [] ∧
    (on_disconnect rc g).1.mqtt_connected = false ∧
    (on_disconnect rc g).1.mosq = g.mosq ∧ (on_disconnect rc g).1.last_host = g.last_host ∧
    (on_disconnect rc g).1.last_port = g.last_port ∧
    (on_disconnect rc g).2 = [Event.lock Lock.mqtt_lock, Event.unlock Lock.mqtt_lock] ∧
    transportCalls (on_disconnect rc g).2 = [] := by
  refine ⟨?_, rfl, rfl, rfl, rfl, rfl, rfl, rfl, rfl, rfl, rfl, rfl⟩
  simp [on_connect]

/-- C18, refuted as stated: with all `MAX_TRACKED` cells filled and the total
at `2 ^ 64 - 1`, observing the unstored id 10000 makes
`count_manager_get_total` return 0, which is smaller than before. -/
theorem total_wraps_counterexample :
    (count_manager_get_total saturated_at_max).1 = 18446744073709551615 ∧
    (count_manager_process_obj MAX_TRACKED 1 10000 ⟨none, 0, 0, 0⟩
        { cm := saturated_at_max, mq := GuardState.initial }).map
          (fun r => (count_manager_get_total r.1.cm).1) = some 0 := by
  have hin : 10000 ∉ saturated_at_max.stored := by
    simp [CounterState.stored, saturated_at_max, MAX_TRACKED]
  refine ⟨by decide, ?_⟩
  rw [process_obj_reject MAX_TRACKED 10000 ⟨none, 0, 0, 0⟩
    { cm := saturated_at_max, mq := GuardState.initial } rfl hin]
  decide

/-- C18, amended: for every counter state whose fill level is within the array
and every `class_id` and `object_id`, the call returns and the value of
`count_manager_get_total` after it is the value before or its successor modulo
`2 ^ 64`: equal or exactly one greater when the value before is below
`2 ^ 64 - 1`, equal or 0 when it is `2 ^ 64 - 1`.  Below that maximum it is
never smaller. -/
theorem total_monotonic_below_max (cap : Nat) (class_id : Int) (object_id : Nat) (t : Transport)
    (w : World) (h0 : 0 ≤ w.cm.seen_count) (hle : w.cm.seen_count ≤ (cap : Int)) :
    ∃ w1 ev, count_manager_process_obj cap class_id object_id t w = some (w1, ev) ∧
      ((count_manager_get_total w1.cm).1 = (count_manager_get_total w.cm).1 ∨
        (count_manager_get_total w1.cm).1 = ((count_manager_get_total w.cm).1 + 1) % 2 ^ 64) ∧
      ((count_manager_get_total w.cm).1 < 2 ^ 64 - 1 →
        ((count_manager_get_total w1.cm).1 = (count_manager_get_total w.cm).1 ∨
          (count_manager_get_total w1.cm).1 = (count_manager_get_total w.cm).1 + 1) ∧
        (count_manager_get_total w.cm).1 ≤ (count_manager_get_total w1.cm).1) ∧
      ((count_manager_get_total w.cm).1 = 2 ^ 64 - 1 →
        (count_manager_get_total w1.cm).1 = 2 ^ 64 - 1 ∨ (count_manager_get_total w1.cm).1 = 0)
    := by
  obtain ⟨w1, ev, hrun, _, _⟩ := process_obj_returns cap class_id object_id t w h0 hle
  have htot := process_obj_total cap class_id object_id t w w1 ev hrun
  refine ⟨w1, ev, hrun, htot, ?_, ?_⟩
  · intro hlt
    simp only [count_manager_get_total] at hlt ⊢
    have hmod : (w.cm.total_count + 1) % 2 ^ 64 = w.cm.total_count + 1 :=
      Nat.mod_eq_of_lt (by omega)
    rw [hmod] at htot
    exact ⟨htot, by omega⟩
  · intro hmax
    simp only [count_manager_get_total] at hmax ⊢
    rw [hmax] at htot
    rcases htot with h | h
    · exact Or.inl h
    · right; rw [h]; norm_num

/-- Witness for the amended C18: id 30 observed on a full two-cell counter with
total 2. -/
theorem total_monotonic_below_max_witness :
    (0 : Int) ≤ full_world.cm.seen_count ∧ full_world.cm.seen_count ≤ ((2 : Nat) : Int) ∧
    ∃ w1 ev, count_manager_process_obj 2 1 30 ⟨none, 0, 0, 0⟩ full_world = some (w1, ev) ∧
      ((count_manager_get_total w1.cm).1 = (count_manager_get_total full_world.cm).1 ∨
        (count_manager_get_total w1.cm).1
          = ((count_manager_get_total full_world.cm).1 + 1) % 2 ^ 64) ∧
      ((count_manager_get_total full_world.cm).1 < 2 ^ 64 - 1 →
        ((count_manager_get_total w1.cm).1 = (count_manager_get_total full_world.cm).1 ∨
          (count_manager_get_total w1.cm).1 = (count_manager_get_total full_world.cm).1 + 1) ∧
        (count_manager_get_total full_world.cm).1 ≤ (count_manager_get_total w1.cm).1) ∧
      ((count_manager_get_total full_world.cm).1 = 2 ^ 64 - 1 →
        (count_manager_get_total w1.cm).1 = 2 ^ 64 - 1 ∨ (count_manager_get_total w1.cm).1 = 0) :=
  ⟨by decide, by decide,
    total_monotonic_below_max 2 1 30 ⟨none, 0, 0, 0⟩ full_world (by decide) (by decide)⟩

/-- C19: in every counter state the program can reach by `count_manager_init`
and `count_manager_process_obj` calls, `0 <= seen_count <= MAX_TRACKED`; every
read of `has_seen_before_locked` and the write of `mark_seen_locked` stay
within the array, so every call of `count_manager_process_obj` returns; and the
ids stored before a call are a prefix of those stored after it, which are at
most one more. -/
theorem seen_set_bounded_append_only (s : CounterState)
    (hr : ProgramReachable MAX_TRACKED s) :
    0 ≤ s.seen_count ∧ s.seen_count ≤ (MAX_TRACKED : Int) ∧
    (∀ id, has_seen_before_locked MAX_TRACKED id s ≠ none ∧
      mark_seen_locked MAX_TRACKED id s ≠ none) ∧
    (∀ (class_id : Int) (id : Nat) (t : Transport) (g : GuardState),
      ∃ w1 ev, count_manager_process_obj MAX_TRACKED class_id id t { cm := s, mq := g }
          = some (w1, ev) ∧
        s.stored <+: w1.cm.stored ∧ w1.cm.stored.length ≤ s.stored.length + 1 ∧
        0 ≤ w1.cm.seen_count ∧ w1.cm.seen_count ≤ (MAX_TRACKED : Int)) := by
  have hinv := counterInv_of_programReachable MAX_TRACKED (by decide) s hr
  refine ⟨hinv.nonneg, hinv.le_cap, ?_, ?_⟩
  · intro id
    constructor
    · rw [has_seen_before_locked_eq MAX_TRACKED id s hinv.le_cap]
      simp
    · unfold mark_seen_locked
      have h0 := hinv.nonneg
      split_ifs <;> simp
  · intro class_id id t g
    obtain ⟨w1, ev, hrun, hb0, hb1⟩ :=
      process_obj_returns MAX_TRACKED class_id id t { cm := s, mq := g } hinv.nonneg hinv.le_cap
    refine ⟨w1, ev, hrun, ?_, ?_, hb0, hb1⟩
    · rcases process_obj_cases MAX_TRACKED class_id id t { cm := s, mq := g } w1 ev hinv hrun
        with h | h | h
      · rw [h]
      · rw [h.2.2.2, stored_inserted id s hinv.nonneg]
        exact List.prefix_append _ _
      · rw [h.2.2.2]
        exact List.prefix_refl _
    · rcases process_obj_cases MAX_TRACKED class_id id t { cm := s, mq := g } w1 ev hinv hrun
        with h | h | h
      · rw [h]; exact Nat.le_succ _
      · rw [h.2.2.2, stored_inserted id s hinv.nonneg]
        simp
      · rw [h.2.2.2]
        simp [CounterState.stored, CounterState.rejected]

/-- Witness for C19: the state after the initial state's first observation. -/
theorem seen_set_bounded_append_only_witness :
    ProgramReachable MAX_TRACKED
      ({ cm := CounterState.initial.inserted 5, mq := GuardState.initial } : World).cm ∧
    (0 : Int) ≤ (CounterState.initial.inserted 5).seen_count ∧
    (CounterState.initial.inserted 5).seen_count ≤ (MAX_TRACKED : Int) :=
  ⟨ProgramReachable.process_obj 1 5 ⟨none, 0, 0, 0⟩
      { cm := CounterState.initial, mq := GuardState.initial } _ _ ProgramReachable.initial
      (process_obj_insert MAX_TRACKED 5 ⟨none, 0, 0, 0⟩
        { cm := CounterState.initial, mq := GuardState.initial }
        (by decide) (by decide) (by decide)),
    (seen_set_bounded_append_only (CounterState.initial.inserted 5)
      (ProgramReachable.process_obj 1 5 ⟨none, 0, 0, 0⟩
        { cm := CounterState.initial, mq := GuardState.initial } _ _ ProgramReachable.initial
        (process_obj_insert MAX_TRACKED 5 ⟨none, 0, 0, 0⟩
          { cm := CounterState.initial, mq := GuardState.initial }
          (by decide) (by decide) (by decide)))).1,
    (seen_set_bounded_append_only (CounterState.initial.inserted 5)
      (ProgramReachable.process_obj 1 5 ⟨none, 0, 0, 0⟩
        { cm := CounterState.initial, mq := GuardState.initial } _ _ ProgramReachable.initial
        (process_obj_insert MAX_TRACKED 5 ⟨none, 0, 0, 0⟩
          { cm := CounterState.initial, mq := GuardState.initial }
          (by decide) (by decide) (by decide)))).2.1⟩

/-- C20: in every counter state the program can reach by `count_manager_init`
and `count_manager_process_obj` calls, `seen_ids[i] != seen_ids[j]` for all
`0 <= i < j < seen_count`, so the number of stored entries equals the number of
distinct ids stored. -/
theorem stored_ids_distinct (s : CounterState) (hr : ProgramReachable MAX_TRACKED s) :
    (∀ i j : Nat, i < j → (j : Int) < s.seen_count → s.seen_ids i ≠ s.seen_ids j) ∧
    s.stored.Nodup ∧ s.stored.dedup.length = s.stored.length ∧
    (s.stored.length : Int) = s.seen_count := by
  have hinv := counterInv_of_programReachable MAX_TRACKED (by decide) s hr
  have h0 := hinv.nonneg
  refine ⟨?_, hinv.nodup, by rw [hinv.nodup.dedup], by rw [stored_length]; omega⟩
  intro i j hij hj heq
  have hjn : j < s.seen_count.toNat := by omega
  have hin : i < s.seen_count.toNat := by omega
  have hli : i < s.stored.length := by rw [stored_length]; exact hin
  have hlj : j < s.stored.length := by rw [stored_length]; exact hjn
  have hgi : s.stored[i] = s.seen_ids i := by simp [CounterState.stored]
  have hgj : s.stored[j] = s.seen_ids j := by simp [CounterState.stored]
  have := (@List.Nodup.getElem_inj_iff _ _ hinv.nodup i hli j hlj).mp (by rw [hgi, hgj, heq])
  omega


/-- Witness for C20: the state after the ids 5 and 7 were observed from the
initial state. -/
theorem stored_ids_distinct_witness :
    ProgramReachable MAX_TRACKED
      ({ cm := (CounterState.initial.inserted 5).inserted 7, mq := GuardState.initial }
        : World).cm ∧
    ((CounterState.initial.inserted 5).inserted 7).stored.Nodup :=
  ⟨ProgramReachable.process_obj 1 7 ⟨none, 0, 0, 0⟩
      { cm := CounterState.initial.inserted 5, mq := GuardState.initial } _ _
      (ProgramReachable.process_obj 1 5 ⟨none, 0, 0, 0⟩
        { cm := CounterState.initial, mq := GuardState.initial }
        { cm := CounterState.initial.inserted 5, mq := GuardState.initial } _
        ProgramReachable.initial
        (process_obj_insert MAX_TRACKED 5 ⟨none, 0, 0, 0⟩
          { cm := CounterState.initial, mq := GuardState.initial }
          (by decide) (by decide) (by decide)))
      (process_obj_insert MAX_TRACKED 7 ⟨none, 0, 0, 0⟩
        { cm := CounterState.initial.inserted 5, mq := GuardState.initial }
        (by decide) (by decide) (by decide)),
    (stored_ids_distinct ((CounterState.initial.inserted 5).inserted 7)
      (ProgramReachable.process_obj 1 7 ⟨none, 0, 0, 0⟩
        { cm := CounterState.initial.inserted 5, mq := GuardState.initial } _ _
        (ProgramReachable.process_obj 1 5 ⟨none, 0, 0, 0⟩
          { cm := CounterState.initial, mq := GuardState.initial }
          { cm := CounterState.initial.inserted 5, mq := GuardState.initial } _
          ProgramReachable.initial
          (process_obj_insert MAX_TRACKED 5 ⟨none, 0, 0, 0⟩
            { cm := CounterState.initial, mq := GuardState.initial }
            (by decide) (by decide) (by decide)))
        (process_obj_insert MAX_TRACKED 7 ⟨none, 0, 0, 0⟩
          { cm := CounterState.initial.inserted 5, mq := GuardState.initial }
          (by decide) (by decide) (by decide)))).2.1⟩

/-- C12: after `count_manager_init` from any counter state (a saturated one
with old ids in the array and the warning flag set included),
`count_manager_get_total` returns 0, no id is stored and the warning flag is
clear; and every sequence of `count_manager_process_obj` and
`count_manager_get_total` calls then returns the same totals and produces the
same events (publish requests, library calls, warnings) as from the program's
initial state, and leaves the same guard state and the same view of the
counter. -/
theorem reset_forgets_history (cap : Nat) (s : CounterState) (g : GuardState)
    (ops : List CounterOp) :
    (count_manager_get_total (count_manager_init s).1).1 = 0 ∧
    (count_manager_init s).1.seen_count = 0 ∧ (count_manager_init s).1.stored = [] ∧
    (count_manager_init s).1.overflow_warned = false ∧
    ∃ w1 w2 out,
      counter_run cap ops { cm := (count_manager_init s).1, mq := g } = some (w1, out) ∧
      counter_run cap ops { cm := CounterState.initial, mq := g } = some (w2, out) ∧
      w1.mq = w2.mq ∧ w1.cm.same_view w2.cm := by
  have hst : (count_manager_init s).1.stored = [] := by
    simp [count_manager_init, CounterState.stored]
  refine ⟨rfl, rfl, hst, rfl, ?_⟩
  apply counter_run_same_view cap ops (count_manager_init s).1 CounterState.initial g
  · exact ⟨rfl, rfl, rfl, by rw [hst]; rfl⟩
  · simp [count_manager_init]
  · simp [count_manager_init]

/-- C13: in every sequence of `count_manager_process_obj` calls after a
`count_manager_init` every call returns, and the calls that write the overflow
warning are exactly the first call of class 1 whose id is not stored while the
array is full, which writes it once; so it is written at most once in the
session.  With capacity 2 and the observations A, B, C, C, A it is written by
the third call only. -/
theorem overflow_warning_once (cap : Nat) (s0 : CounterState) (g0 : GuardState)
    (calls : List ObjCall) :
    (∃ w evs,
      process_all cap calls { cm := (count_manager_init s0).1, mq := g0 } = some (w, evs) ∧
      warning_counts evs
        = (first_true_only
            (overflowing_calls cap calls { cm := (count_manager_init s0).1, mq := g0 })).map
              (fun b => if b = true then 1 else 0) ∧
      evs.flatten.count Event.overflow_warning ≤ 1) ∧
    (∀ (t1 t2 t3 t4 t5 : Transport) (A B C : Nat), A ≠ B → A ≠ C → B ≠ C →
      ∃ w evs,
        process_all 2 [⟨1, A, t1⟩, ⟨1, B, t2⟩, ⟨1, C, t3⟩, ⟨1, C, t4⟩, ⟨1, A, t5⟩]
          { cm := (count_manager_init s0).1, mq := g0 } = some (w, evs) ∧
        warning_counts evs = [0, 0, 1, 0, 0]) := by
  have hgen : ∀ (n : Nat) (cs : List ObjCall), ∃ w evs,
      process_all n cs { cm := (count_manager_init s0).1, mq := g0 } = some (w, evs) ∧
      warning_counts evs
        = (first_true_only
            (overflowing_calls n cs { cm := (count_manager_init s0).1, mq := g0 })).map
              (fun b => if b = true then 1 else 0) := by
    intro n cs
    exact process_all_warnings n cs { cm := (count_manager_init s0).1, mq := g0 }
      (by simp [count_manager_init]) (by simp [count_manager_init]) rfl
  refine ⟨?_, ?_⟩
  · obtain ⟨w, evs, hrun, hcounts⟩ := hgen cap calls
    refine ⟨w, evs, hrun, hcounts, ?_⟩
    rw [List.count_flatten]
    have : List.map (List.count Event.overflow_warning) evs = warning_counts evs := rfl
    rw [this, hcounts]
    exact first_true_only_sum _
  · intro t1 t2 t3 t4 t5 A B C hAB hAC hBC
    obtain ⟨w, evs, hrun, hcounts⟩ :=
      hgen 2 [⟨1, A, t1⟩, ⟨1, B, t2⟩, ⟨1, C, t3⟩, ⟨1, C, t4⟩, ⟨1, A, t5⟩]
    refine ⟨w, evs, hrun, ?_⟩
    rw [hcounts]
    have hBA := hAB.symm
    have hCA := hAC.symm
    have hCB := hBC.symm
    simp [overflowing_calls, is_overflowing, first_true_only, count_manager_process_obj,
      has_seen_before_locked, has_seen_loop, mark_seen_locked, count_manager_init,
      CounterState.stored, List.range_succ, hAB, hAC, hBC, hBA, hCA, hCB]


/-- Witness for C13: the ids 10, 20, 30, 30, 10 observed after a reset of a
full two-cell counter that stored 10 and 20. -/
theorem overflow_warning_once_witness :
    (10 : Nat) ≠ 20 ∧ (10 : Nat) ≠ 30 ∧ (20 : Nat) ≠ 30 ∧
    ∃ w evs,
      process_all 2
        [⟨1, 10, ⟨none, 0, 0, 0⟩⟩, ⟨1, 20, ⟨none, 0, 0, 0⟩⟩, ⟨1, 30, ⟨none, 0, 0, 0⟩⟩,
          ⟨1, 30, ⟨none, 0, 0, 0⟩⟩, ⟨1, 10, ⟨none, 0, 0, 0⟩⟩]
        { cm := (count_manager_init full_world.cm).1, mq := GuardState.initial }
          = some (w, evs) ∧
      warning_counts evs = [0, 0, 1, 0, 0] :=
  ⟨by decide, by decide, by decide,
    (overflow_warning_once 2 full_world.cm GuardState.initial []).2 ⟨none, 0, 0, 0⟩
      ⟨none, 0, 0, 0⟩ ⟨none, 0, 0, 0⟩ ⟨none, 0, 0, 0⟩ ⟨none, 0, 0, 0⟩ 10 20 30 (by decide)
      (by decide) (by decide)⟩

/-! ## Claim about the two locks -/

/-- C14, refuted as stated: the first observation of id 5 in the program's
initial state takes `mqtt_lock` while `cm_lock` is held; the publish is
requested and `mqtt_lock` taken and released before `cm_lock` is released. -/
theorem locks_nested_counterexample :
    (count_manager_process_obj MAX_TRACKED 1 5 ⟨none, 0, 0, 0⟩
        { cm := CounterState.initial, mq := GuardState.initial }).map (fun r => r.2)
      = some [Event.lock Lock.cm_lock,
              Event.publish_request (some "deepstream/count") (some "1"),
              Event.lock Lock.mqtt_lock, Event.unlock Lock.mqtt_lock,
              Event.unlock Lock.cm_lock] ∧
    (count_manager_process_obj MAX_TRACKED 1 5 ⟨none, 0, 0, 0⟩
        { cm := CounterState.initial, mq := GuardState.initial }).map
          (fun r => acquired_under [] r.2)
      = some [(Lock.cm_lock, Lock.mqtt_lock)] := by
  decide

/-- C14, amended: `cm_lock` is never acquired while `mqtt_lock` is held, and the
only acquisition of one lock under the other is `mqtt_lock` under `cm_lock`,
exactly in a call of `count_manager_process_obj` of class 1 that does not find
the id: it takes `cm_lock`, requests the publish, which takes and releases
`mqtt_lock`, and only then releases `cm_lock`.  A call that finds the id takes
and releases `cm_lock` alone, a call of another class takes no lock;
`count_manager_init` and `count_manager_get_total` take and release `cm_lock`
alone; every operation of the publish guard takes `mqtt_lock` alone; every
operation has released its locks when it returns. -/
theorem locks_nest_in_one_order (cap : Nat) (class_id : Int) (id : Nat) (t : Transport)
    (w : World) (h0 : 0 ≤ w.cm.seen_count) (hle : w.cm.seen_count ≤ (cap : Int)) :
    (∃ w1 ev, count_manager_process_obj cap class_id id t w = some (w1, ev) ∧
      (∀ p ∈ acquired_under [] ev, p = (Lock.cm_lock, Lock.mqtt_lock)) ∧
      held_after [] ev = [] ∧
      (class_id = 1 → id ∉ w.cm.stored →
        acquired_under [] ev = [(Lock.cm_lock, Lock.mqtt_lock)] ∧
        sync_events ev
          = [Event.lock Lock.cm_lock,
              Event.publish_request (some "deepstream/count")
                (some (snprintf_llu 64 ((w.cm.total_count + 1) % 2 ^ 64))),
              Event.lock Lock.mqtt_lock, Event.unlock Lock.mqtt_lock,
              Event.unlock Lock.cm_lock] ∧
        lock_events ev
          = [Event.lock Lock.cm_lock, Event.lock Lock.mqtt_lock, Event.unlock Lock.mqtt_lock,
              Event.unlock Lock.cm_lock]) ∧
      (class_id = 1 → id ∈ w.cm.stored →
        acquired_under [] ev = [] ∧
        sync_events ev = [Event.lock Lock.cm_lock, Event.unlock Lock.cm_lock]) ∧
      (class_id ≠ 1 → acquired_under [] ev = [] ∧ sync_events ev = [])) ∧
    (∀ s, acquired_under [] (count_manager_init s).2 = [] ∧
      held_after [] (count_manager_init s).2 = [] ∧
      lock_events (count_manager_init s).2
        = [Event.lock Lock.cm_lock, Event.unlock Lock.cm_lock]) ∧
    (∀ s, acquired_under [] (count_manager_get_total s).2 = [] ∧
      held_after [] (count_manager_get_total s).2 = [] ∧
      lock_events (count_manager_get_total s).2
        = [Event.lock Lock.cm_lock, Event.unlock Lock.cm_lock]) ∧
    (∀ op g, acquired_under [] (guard_step op g).2.2 = [] ∧
      held_after [] (guard_step op g).2.2 = [] ∧
      ∀ e ∈ lock_events (guard_step op g).2.2,
        e = Event.lock Lock.mqtt_lock ∨ e = Event.unlock Lock.mqtt_lock) := by
  refine ⟨?_, fun s => ⟨rfl, rfl, rfl⟩, fun s => ⟨rfl, rfl, rfl⟩,
    fun op g => ⟨(guard_step_locks op g).1, (guard_step_locks op g).2,
      guard_step_no_cm_lock op g⟩⟩
  obtain ⟨w1, ev, hrun, _, _⟩ := process_obj_returns cap class_id id t w h0 hle
  obtain ⟨hacq, hheld⟩ := client_publish_locks "deepstream/count"
    (snprintf_llu 64 ((w.cm.total_count + 1) % 2 ^ 64)) t w.mq
  obtain ⟨hsync, hlock⟩ := client_publish_sync "deepstream/count"
    (snprintf_llu 64 ((w.cm.total_count + 1) % 2 ^ 64)) t w.mq
  refine ⟨w1, ev, hrun, ?_, ?_, ?_, ?_, ?_⟩
  · rcases process_obj_events cap class_id id t w w1 ev hrun with h | h | ⟨warn, hwarn, h⟩
    · subst h; simp [acquired_under]
    · subst h; simp [acquired_under]
    · rw [h, (locks_of_publishing_call warn _ hwarn hacq hheld).1]
      simp
  · rcases process_obj_events cap class_id id t w w1 ev hrun with h | h | ⟨warn, hwarn, h⟩
    · subst h; rfl
    · subst h; simp [held_after]
    · rw [h, (locks_of_publishing_call warn _ hwarn hacq hheld).2]
  · intro hc hin
    subst hc
    obtain ⟨w2, warn, hrun2, _, _, hwarn⟩ := process_obj_absent cap id t w h0 hle hin
    rw [hrun] at hrun2
    simp only [Option.some.injEq, Prod.mk.injEq] at hrun2
    rw [hrun2.2, (locks_of_publishing_call warn _ hwarn hacq hheld).1,
      (sync_of_publishing_call warn _ hwarn).1, (sync_of_publishing_call warn _ hwarn).2,
      hsync, hlock]
    exact ⟨rfl, rfl, rfl⟩
  · intro hc hin
    subst hc
    rw [process_obj_present cap id t w hle hin] at hrun
    simp only [Option.some.injEq, Prod.mk.injEq] at hrun
    rw [← hrun.2]
    exact ⟨rfl, rfl⟩
  · intro hc
    rw [process_obj_other cap class_id id t w hc] at hrun
    simp only [Option.some.injEq, Prod.mk.injEq] at hrun
    rw [← hrun.2]
    exact ⟨rfl, rfl⟩

/-- Witness for the amended C14: id 30 observed on a full two-cell counter and
a connected guard. -/
theorem locks_nest_in_one_order_witness :
    (0 : Int) ≤ full_world_connected.cm.seen_count ∧
    full_world_connected.cm.seen_count ≤ ((2 : Nat) : Int) ∧
    ∃ w1 ev, count_manager_process_obj 2 1 30 ⟨none, 0, 0, 0⟩ full_world_connected
        = some (w1, ev) ∧
      (∀ p ∈ acquired_under [] ev, p = (Lock.cm_lock, Lock.mqtt_lock)) ∧
      held_after [] ev = [] ∧
      ((1 : Int) = 1 → 30 ∉ full_world_connected.cm.stored →
        acquired_under [] ev = [(Lock.cm_lock, Lock.mqtt_lock)] ∧
        sync_events ev
          = [Event.lock Lock.cm_lock,
              Event.publish_request (some "deepstream/count")
                (some (snprintf_llu 64 ((full_world_connected.cm.total_count + 1) % 2 ^ 64))),
              Event.lock Lock.mqtt_lock, Event.unlock Lock.mqtt_lock,
              Event.unlock Lock.cm_lock] ∧
        lock_events ev
          = [Event.lock Lock.cm_lock, Event.lock Lock.mqtt_lock, Event.unlock Lock.mqtt_lock,
              Event.unlock Lock.cm_lock]) ∧
      ((1 : Int) = 1 → 30 ∈ full_world_connected.cm.stored →
        acquired_under [] ev = [] ∧
        sync_events ev = [Event.lock Lock.cm_lock, Event.unlock Lock.cm_lock]) ∧
      ((1 : Int) ≠ 1 → acquired_under [] ev = [] ∧ sync_events ev = []) :=
  ⟨by decide, by decide,
    (locks_nest_in_one_order 2 1 30 ⟨none, 0, 0, 0⟩ full_world_connected (by decide)
      (by decide)).1⟩


end CountManager
